import Mathlib

/-!
# d2player.GameControls: HUD input routing

A shallow embedding of `d2game/d2player/game_controls.go`.

* Finite Go `float64` values (clock readings, world coordinates, camera deltas) are
  carried as the rationals they denote; `isF64` says that a rational is such a value.
  Every float64 operation of the code is the exact operation followed by `roundF64`,
  rounding to the nearest float64 with ties to even. Conversions to `int` are
  those of a 64-bit platform, with the out-of-range result of amd64.
* Every handler returns an `Outcome`: its Go return value, the successor state
  and the list of calls it issued, in program order.
* Functions and types that live in other packages (`d2common`, `d2input`,
  `d2mapentity`, `d2maprenderer`, the escape menu) are passed in through
  `Env` or modelled next to their first use.
-/

namespace D2Player

/-! ## Data model -/

/-- The struct `d2common.Rectangle` as used by the region table: four integer fields. -/
structure Rectangle where
  Left : Int
  Top : Int
  Width : Int
  Height : Int
deriving DecidableEq, Repr

/-- Go `type ActionableType int`. -/
abbrev ActionableType := Int

/-- Go `type ActionableRegion struct`. -/
structure ActionableRegion where
  ActionableTypeId : ActionableType
  Rect : Rectangle
deriving DecidableEq, Repr

def leftSkill : ActionableType := 0
def leftSelec : ActionableType := 1
def xp : ActionableType := 2
def walkRun : ActionableType := 3
def stamina : ActionableType := 4
def miniPanel : ActionableType := 5
def rightSelec : ActionableType := 6
def rightSkill : ActionableType := 7

/-- Modelled from the spec: `d2input.MouseButton` is declared outside this file; the
handlers only compare it with `MouseButtonLeft` and `MouseButtonRight`. -/
inductive MouseButton where
  | MouseButtonLeft
  | MouseButtonRight
  | other (code : Nat)
deriving DecidableEq, Repr

/-- Modelled from the spec: `d2input.MouseEvent`, of which the handlers read `X`, `Y`, `Button`. -/
structure MouseEvent where
  X : Int
  Y : Int
  Button : MouseButton
deriving DecidableEq, Repr

/-- Modelled from the spec: `d2input.MouseMoveEvent`, of which the handler reads `X`, `Y`. -/
structure MouseMoveEvent where
  X : Int
  Y : Int
deriving DecidableEq, Repr

/-- Modelled from the spec: `d2input.Key`, the key codes the handlers compare against. -/
inductive Key where
  | KeyEscape
  | KeyUp
  | KeyDown
  | KeyLeft
  | KeyRight
  | KeyEnter
  | KeyI
  | KeyC
  | KeyR
  | other (code : Nat)
deriving DecidableEq, Repr

/-- Modelled from the spec: `d2input.KeyMod`, the modifiers of a key event carried as one
integer, a bit per held modifier key. -/
abbrev KeyMod := Nat

def KeyModAlt : KeyMod := 1
def KeyModControl : KeyMod := 2
def KeyModShift : KeyMod := 4

/-- Whether the Shift bit is set in a modifier value. -/
def KeyMod.shiftHeld (m : KeyMod) : Bool := m &&& KeyModShift != 0

/-- Modelled from the spec: `d2input.KeyEvent`, of which the handlers read `Key`, `KeyMod`. -/
structure KeyEvent where
  Key : Key
  KeyMod : KeyMod
deriving DecidableEq, Repr

/-- A projectile entity handed out by `d2mapentity.CreateMissile`, identified by a handle. -/
structure Missile where
  handle : Nat
deriving DecidableEq, Repr

/-- Calls issued by the handlers, to collaborators and to their own helpers. -/
inductive Call where
  | MoveCameraBy (x y : ℚ)
  | ViewportDefault
  | ViewportToLeft
  | ViewportToRight
  | OnPlayerMove (px py : ℚ)
  | ShootMissile (px py : ℚ)
  | CreateMissile (x y : Int) (missileID : Int)
  | SetRadians (missile : Missile) (rads : ℚ)
  | AddEntity (missile : Missile)
  | RemoveEntity (missile : Missile)
  | inventoryClose
  | inventoryToggle
  | heroStatsClose
  | heroStatsToggle
  | escapeMenuToggle
  | escapeMenuOnUpKey
  | escapeMenuOnDownKey
  | escapeMenuOnEnterKey
  | escapeMenuOnMouseMove (event : MouseMoveEvent)
  | escapeMenuOnMouseButtonDown (event : MouseEvent)
  | runButtonToggle
  | heroToggleRunWalk
  | heroSetIsRunning (running : Bool)
  | onHoverActionable (item : ActionableType)
  | onClickActionable (item : ActionableType)
  | log (msg : String)
  | AfterFunc (nanoseconds : Int)
deriving DecidableEq, Repr

/-- The `GameControls` struct together with the package-level variables of the file and
the parts of its collaborators that the handlers read or write. -/
structure GameControls where
  /-- `g.inventory.isOpen` -/
  inventoryIsOpen : Bool
  /-- `g.heroStats.isOpen` -/
  heroStatsIsOpen : Bool
  /-- `g.escapeMenu.IsOpen()` -/
  escapeMenuIsOpen : Bool
  FreeCam : Bool
  isZoneTextShown : Bool
  actionableRegions : List ActionableRegion
  /-- `g.hero.LocationX` -/
  heroLocationX : ℚ
  /-- `g.hero.LocationY` -/
  heroLocationY : ℚ
  /-- `g.hero.IsRunToggled()` -/
  heroIsRunToggled : Bool
  /-- What `g.hero.SetIsRunning` last stored. -/
  heroIsRunning : Bool
  /-- Toggle state of `g.runButton`. -/
  runButtonToggled : Bool
  /-- Package variable `missileID`. -/
  missileID : Int
  /-- Package variable `lastLeftBtnActionTime`. -/
  lastLeftBtnActionTime : ℚ
  /-- Package variable `lastRightBtnActionTime`. -/
  lastRightBtnActionTime : ℚ
  /-- The entity set of `g.mapEngine`. -/
  entities : List Missile
  /-- Missiles whose `SetRadians` completion callback (a `RemoveEntity`) is registered. -/
  removalCallbacks : List Missile
  /-- Durations, in nanoseconds, of the pending `time.AfterFunc` timers that hide the banner. -/
  hideTimers : List Int
deriving DecidableEq, Repr

/-- Collaborators of `GameControls` that are defined in other packages. The `float64` values
they return are finite and given as the rationals they denote. -/
structure Env where
  /-- `g.mapRenderer.ScreenToWorld` -/
  ScreenToWorld : Int → Int → ℚ × ℚ
  /-- `d2common.Rectangle.IsInRect` -/
  IsInRect : Rectangle → Int → Int → Bool
  /-- `d2mapentity.CreateMissile(x, y, d2datadict.Missiles[missileID])`: the record lookup and
  the construction, which yields a missile or an error. -/
  CreateMissile : Int → Int → Int → Except String Missile
  /-- `d2common.GetRadiansBetween` -/
  GetRadiansBetween : ℚ → ℚ → ℚ → ℚ → ℚ
  /-- `g.escapeMenu.OnMouseButtonDown`: its return value and whether the menu is open afterwards. -/
  escapeMenuOnMouseButtonDown : MouseEvent → Bool × Bool
  /-- Whether the escape menu is open after `g.escapeMenu.OnEnterKey`, given whether it was. -/
  escapeMenuOnEnterKey : Bool → Bool

/-- What a handler did: its return value, the state it leaves and the calls it issued. -/
structure Outcome where
  ret : Bool
  g : GameControls
  calls : List Call
deriving DecidableEq, Repr

/-- Modelled from the spec: `d2common.Rectangle.IsInRect` is declared outside this file; the
spec's hit-test policy is inclusive rectangle containment. -/
def Rectangle.containsInclusive (r : Rectangle) (x y : Int) : Bool :=
  decide (r.Left ≤ x) && decide (x ≤ r.Left + r.Width) &&
    decide (r.Top ≤ y) && decide (y ≤ r.Top + r.Height)

/-- Half-open rectangle containment: the right and bottom edges are excluded. -/
def Rectangle.containsHalfOpen (r : Rectangle) (x y : Int) : Bool :=
  decide (r.Left ≤ x) && decide (x < r.Left + r.Width) &&
    decide (r.Top ≤ y) && decide (y < r.Top + r.Height)

/-- Two rectangles are separated along an axis: one ends, right or bottom edge included,
before the other begins. -/
def Rectangle.separated (a b : Rectangle) : Bool :=
  decide (a.Left + a.Width < b.Left) || decide (b.Left + b.Width < a.Left) ||
    decide (a.Top + a.Height < b.Top) || decide (b.Top + b.Height < a.Top)

/-- Rounding of a rational to the nearest integer, a tie going to the even one. -/
def roundHalfEven (q : ℚ) : Int :=
  if q - ⌊q⌋ < 1 / 2 then ⌊q⌋
  else if 1 / 2 < q - ⌊q⌋ then ⌊q⌋ + 1
  else if ⌊q⌋ % 2 = 0 then ⌊q⌋ else ⌊q⌋ + 1

/-- Exponent of the unit in the last place of float64 at `x`: 53 significant bits, and the
subnormal spacing `2^-1074` below `2^-1022`. -/
def ulpExp (x : ℚ) : Int := max (Int.log 2 |x| - 52) (-1074)

/-- Rounding of an exact result to float64, to nearest with ties to even. A result beyond the
largest float64 is left finite instead of becoming an infinity: the code only compares such a
result with `0.25` or converts it to `int`, where an infinity and a finite value beyond the
`int64` range behave alike. -/
def roundF64 (x : ℚ) : ℚ := (roundHalfEven (x / 2 ^ ulpExp x) : ℚ) * 2 ^ ulpExp x

/-- Whether a rational is a finite float64 value. -/
def isF64 (x : ℚ) : Bool := decide (roundF64 x = x) && decide (|x| < 2 ^ 1024)

/-- Go `a - b` on `float64`. -/
def F64.sub (a b : ℚ) : ℚ := roundF64 (a - b)

/-- Go `a * b` on `float64`. -/
def F64.mul (a b : ℚ) : ℚ := roundF64 (a * b)

/-- Go `a / b` on `float64`, for a divisor other than zero. -/
def F64.div (a b : ℚ) : ℚ := roundF64 (a / b)

/-- Go conversion `float64(k)` of an `int`. -/
def F64.ofInt (k : Int) : ℚ := roundF64 (k : ℚ)

/-- Go conversion `int(f)` of a `float64` (and `int64(f)`, as in `time.Duration(f)`):
truncation toward zero; a truncated value outside the `int64` range yields `-2^63`, as on
amd64. -/
def goInt (f : ℚ) : Int :=
  if -2 ^ 63 ≤ Int.tdiv f.num f.den ∧ Int.tdiv f.num f.den < 2 ^ 63 then Int.tdiv f.num f.den
  else -2 ^ 63

/-- Wrap-around of an integer into the range of Go `int64`. -/
def wrapInt64 (z : Int) : Int := (z + 2 ^ 63) % 2 ^ 64 - 2 ^ 63

/-- The constant `time.Second`, in nanoseconds. -/
def Second : Int := 1000000000

/-- Package variable `mouseBtnActionsTreshhold`. -/
def mouseBtnActionsTreshhold : ℚ := 0.25

/-- The region table built by `NewGameControls`. -/
def newActionableRegions : List ActionableRegion :=
  [ ⟨leftSkill, ⟨115, 550, 50, 50⟩⟩,
    ⟨leftSelec, ⟨206, 563, 30, 30⟩⟩,
    ⟨xp, ⟨253, 560, 125, 5⟩⟩,
    ⟨walkRun, ⟨255, 573, 17, 20⟩⟩,
    ⟨stamina, ⟨273, 573, 105, 20⟩⟩,
    ⟨miniPanel, ⟨393, 563, 12, 23⟩⟩,
    ⟨rightSelec, ⟨562, 563, 30, 30⟩⟩,
    ⟨rightSkill, ⟨634, 550, 50, 50⟩⟩ ]

/-- `NewGameControls`: panels closed, free camera off, the fixed region table; the
package variables hold their initial values `59`, `0`, `0`. -/
def NewGameControls (heroLocationX heroLocationY : ℚ) (heroIsRunToggled : Bool) : GameControls :=
  { inventoryIsOpen := false
    heroStatsIsOpen := false
    escapeMenuIsOpen := false
    FreeCam := false
    isZoneTextShown := false
    actionableRegions := newActionableRegions
    heroLocationX := heroLocationX
    heroLocationY := heroLocationY
    heroIsRunToggled := heroIsRunToggled
    heroIsRunning := false
    runButtonToggled := false
    missileID := 59
    lastLeftBtnActionTime := 0
    lastRightBtnActionTime := 0
    entities := []
    removalCallbacks := []
    hideTimers := [] }

/-! ## Operations -/

/-- The terminal action `setmissile` bound by `NewGameControls`. -/
def setmissile (g : GameControls) (id : Int) : GameControls :=
  { g with missileID := id }

/-- The terminal action `freecam` bound by `NewGameControls`. -/
def freecam (g : GameControls) : GameControls :=
  { g with FreeCam := !g.FreeCam }

/-- `GameControls.OnKeyRepeat` -/
def OnKeyRepeat (g : GameControls) (event : KeyEvent) : Outcome :=
  if g.FreeCam then
    let moveSpeed : ℚ := if event.KeyMod = KeyModShift then 8 * 2 else 8
    if event.Key = Key.KeyDown then ⟨true, g, [Call.MoveCameraBy 0 moveSpeed]⟩
    else if event.Key = Key.KeyUp then ⟨true, g, [Call.MoveCameraBy 0 (-moveSpeed)]⟩
    else if event.Key = Key.KeyRight then ⟨true, g, [Call.MoveCameraBy moveSpeed 0]⟩
    else if event.Key = Key.KeyLeft then ⟨true, g, [Call.MoveCameraBy (-moveSpeed) 0]⟩
    else ⟨false, g, []⟩
  else ⟨false, g, []⟩

/-- `GameControls.updateLayout`: the one viewport command it issues. -/
def updateLayout (g : GameControls) : List Call :=
  let isRightPanelOpen := g.inventoryIsOpen || false
  let isLeftPanelOpen := g.heroStatsIsOpen || false
  if isRightPanelOpen = isLeftPanelOpen then [Call.ViewportDefault]
  else if isRightPanelOpen = true then [Call.ViewportToLeft]
  else [Call.ViewportToRight]

/-- `GameControls.onToggleRunButton` -/
def onToggleRunButton (g : GameControls) : GameControls × List Call :=
  let toggled := !g.heroIsRunToggled
  ({ g with runButtonToggled := !g.runButtonToggled
            heroIsRunToggled := toggled
            heroIsRunning := toggled },
   [Call.runButtonToggle, Call.heroToggleRunWalk, Call.heroSetIsRunning toggled])

/-- `GameControls.OnKeyDown` -/
def OnKeyDown (env : Env) (g : GameControls) (event : KeyEvent) : Outcome :=
  match event.Key with
  | Key.KeyEscape =>
    if g.inventoryIsOpen || g.heroStatsIsOpen then
      let g1 := { g with inventoryIsOpen := false, heroStatsIsOpen := false }
      ⟨false, g1, [Call.inventoryClose, Call.heroStatsClose] ++ updateLayout g1⟩
    else
      ⟨false, { g with escapeMenuIsOpen := !g.escapeMenuIsOpen }, [Call.escapeMenuToggle]⟩
  | Key.KeyUp => ⟨false, g, [Call.escapeMenuOnUpKey]⟩
  | Key.KeyDown => ⟨false, g, [Call.escapeMenuOnDownKey]⟩
  | Key.KeyEnter =>
    ⟨false, { g with escapeMenuIsOpen := env.escapeMenuOnEnterKey g.escapeMenuIsOpen },
      [Call.escapeMenuOnEnterKey]⟩
  | Key.KeyI =>
    let g1 := { g with inventoryIsOpen := !g.inventoryIsOpen }
    ⟨false, g1, Call.inventoryToggle :: updateLayout g1⟩
  | Key.KeyC =>
    let g1 := { g with heroStatsIsOpen := !g.heroStatsIsOpen }
    ⟨false, g1, Call.heroStatsToggle :: updateLayout g1⟩
  | Key.KeyR =>
    let r := onToggleRunButton g
    ⟨false, r.1, r.2⟩
  | _ => ⟨false, g, []⟩

/-- `GameControls.ShootMissile` -/
def ShootMissile (env : Env) (g : GameControls) (px py : ℚ) : Outcome :=
  let x := goInt g.heroLocationX
  let y := goInt g.heroLocationY
  match env.CreateMissile x y g.missileID with
  | Except.error _ =>
    ⟨false, g, [Call.ShootMissile px py, Call.CreateMissile x y g.missileID]⟩
  | Except.ok missile =>
    let rads := env.GetRadiansBetween g.heroLocationX g.heroLocationY (F64.mul px 5) (F64.mul py 5)
    ⟨true,
     { g with removalCallbacks := g.removalCallbacks ++ [missile]
              entities := g.entities ++ [missile] },
     [Call.ShootMissile px py, Call.CreateMissile x y g.missileID,
      Call.SetRadians missile rads, Call.AddEntity missile]⟩

/-- The rounding both mouse handlers apply to a projected coordinate:
`float64(int(p*10)) / 10.0`. -/
def truncTenth (p : ℚ) : ℚ := F64.div (F64.ofInt (goInt (F64.mul p 10))) 10

/-- `GameControls.OnMouseButtonRepeat`; `now` is the reading of `d2common.Now()`. -/
def OnMouseButtonRepeat (env : Env) (g : GameControls) (event : MouseEvent) (now : ℚ) : Outcome :=
  let p := env.ScreenToWorld event.X event.Y
  let px := truncTenth p.1
  let py := truncTenth p.2
  if event.Button = MouseButton.MouseButtonLeft ∧
      F64.sub now g.lastLeftBtnActionTime ≥ mouseBtnActionsTreshhold then
    ⟨true, { g with lastLeftBtnActionTime := now }, [Call.OnPlayerMove px py]⟩
  else if event.Button = MouseButton.MouseButtonRight ∧
      F64.sub now g.lastRightBtnActionTime ≥ mouseBtnActionsTreshhold then
    let r := ShootMissile env { g with lastRightBtnActionTime := now } px py
    ⟨true, r.g, r.calls⟩
  else ⟨true, g, []⟩

/-- `GameControls.onHoverActionable` -/
def onHoverActionable (item : ActionableType) : List Call :=
  Call.onHoverActionable item ::
    (if item = leftSkill then []
     else if item = leftSelec then []
     else if item = xp then []
     else if item = walkRun then []
     else if item = stamina then []
     else if item = miniPanel then []
     else if item = rightSelec then []
     else if item = rightSkill then []
     else [Call.log ("Unrecognized ActionableType(" ++ toString item ++ ") being hovered\n")])

/-- `GameControls.onClickActionable` -/
def onClickActionable (item : ActionableType) : List Call :=
  Call.onClickActionable item ::
    (if item = leftSkill then [Call.log "Left Skill Action Pressed\n"]
     else if item = leftSelec then [Call.log "Left Skill Selector Action Pressed\n"]
     else if item = xp then [Call.log "XP Action Pressed\n"]
     else if item = walkRun then [Call.log "Walk/Run Action Pressed\n"]
     else if item = stamina then [Call.log "Stamina Action Pressed\n"]
     else if item = miniPanel then [Call.log "Mini Panel Action Pressed\n"]
     else if item = rightSelec then [Call.log "Right Skill Selector Action Pressed\n"]
     else if item = rightSkill then [Call.log "Right Skill Action Pressed\n"]
     else [Call.log ("Unrecognized ActionableType(" ++ toString item ++ ") being clicked\n")])

/-- The loop of `OnMouseMove` over the region table: no early exit. -/
def hoverLoop (env : Env) (mx my : Int) : List ActionableRegion → List Call
  | [] => []
  | r :: rest =>
    if env.IsInRect r.Rect mx my = true then
      onHoverActionable r.ActionableTypeId ++ hoverLoop env mx my rest
    else hoverLoop env mx my rest

/-- `GameControls.OnMouseMove` -/
def OnMouseMove (env : Env) (g : GameControls) (event : MouseMoveEvent) : Outcome :=
  if g.escapeMenuIsOpen then
    ⟨false, g, [Call.escapeMenuOnMouseMove event]⟩
  else
    ⟨false, g, hoverLoop env event.X event.Y g.actionableRegions⟩

/-- The loop of `OnMouseButtonDown` over the region table: the calls of the first hit, at
which the handler returns, or `none` when the loop runs to its end. -/
def clickLoop (env : Env) (mx my : Int) : List ActionableRegion → Option (List Call)
  | [] => none
  | r :: rest =>
    if env.IsInRect r.Rect mx my = true then some (onClickActionable r.ActionableTypeId)
    else clickLoop env mx my rest

/-- `GameControls.OnMouseButtonDown`; `now` is the reading of `d2common.Now()`. -/
def OnMouseButtonDown (env : Env) (g : GameControls) (event : MouseEvent) (now : ℚ) : Outcome :=
  if g.escapeMenuIsOpen then
    let r := env.escapeMenuOnMouseButtonDown event
    ⟨r.1, { g with escapeMenuIsOpen := r.2 }, [Call.escapeMenuOnMouseButtonDown event]⟩
  else
    match clickLoop env event.X event.Y g.actionableRegions with
    | some calls => ⟨false, g, calls⟩
    | none =>
      let p := env.ScreenToWorld event.X event.Y
      let px := truncTenth p.1
      let py := truncTenth p.2
      if event.Button = MouseButton.MouseButtonLeft then
        ⟨true, { g with lastLeftBtnActionTime := now }, [Call.OnPlayerMove px py]⟩
      else if event.Button = MouseButton.MouseButtonRight then
        ShootMissile env { g with lastRightBtnActionTime := now } px py
      else ⟨false, g, []⟩

/-- `GameControls.ShowZoneChangeText` -/
def ShowZoneChangeText (g : GameControls) : GameControls :=
  { g with isZoneTextShown := true }

/-- The duration `time.Duration(delay)*time.Second` that `HideZoneChangeTextAfter` hands to
`time.AfterFunc`, in nanoseconds: the conversion to the integer type `time.Duration`
comes first, the multiplication is in `int64`. -/
def hideDelayNanoseconds (delay : ℚ) : Int :=
  wrapInt64 (goInt delay * Second)

/-- `GameControls.HideZoneChangeTextAfter`: registers the timer; the banner flag is written
only when a timer fires. -/
def HideZoneChangeTextAfter (g : GameControls) (delay : ℚ) : GameControls × List Call :=
  let d := hideDelayNanoseconds delay
  ({ g with hideTimers := g.hideTimers ++ [d] }, [Call.AfterFunc d])

/-- The callback of `HideZoneChangeTextAfter`, run when a timer fires. -/
def hideZoneChangeTextCallback (g : GameControls) : GameControls :=
  { g with isZoneTextShown := false }

/-- The completion callback that `ShootMissile` hands to `SetRadians`, run when the flight
of `missile` ends: `g.mapEngine.RemoveEntity(missile)`. -/
def missileDoneCallback (g : GameControls) (missile : Missile) : GameControls × List Call :=
  ({ g with entities := g.entities.erase missile
            removalCallbacks := g.removalCallbacks.erase missile },
   [Call.RemoveEntity missile])

/-! ## Event sequences and observations on call lists -/

/-- A mouse-button event as delivered to `GameControls`, with the clock reading the handler
obtains from `d2common.Now()`. -/
inductive MouseInput where
  | Down (event : MouseEvent) (now : ℚ)
  | Repeat (event : MouseEvent) (now : ℚ)
deriving DecidableEq, Repr

/-- The clock reading of an input. -/
def MouseInput.now : MouseInput → ℚ
  | MouseInput.Down _ t => t
  | MouseInput.Repeat _ t => t

/-- Whether the input is delivered to `OnMouseButtonRepeat`. -/
def MouseInput.isRepeat : MouseInput → Bool
  | MouseInput.Down _ _ => false
  | MouseInput.Repeat _ _ => true

/-- Dispatch of one input to its handler. -/
def stepMouse (env : Env) (g : GameControls) : MouseInput → Outcome
  | MouseInput.Down event now => OnMouseButtonDown env g event now
  | MouseInput.Repeat event now => OnMouseButtonRepeat env g event now

/-- Run a sequence of inputs from `g`; the history pairs each input with the calls its
handler issued. -/
def runMouse (env : Env) (g : GameControls) : List MouseInput → List (MouseInput × List Call)
  | [] => []
  | i :: rest => (i, (stepMouse env g i).calls) :: runMouse env (stepMouse env g i).g rest

/-- Whether a call is the action forwarded for button `b`: `OnPlayerMove` for the left
button, `ShootMissile` for the right one. -/
def Call.isActionOf (b : MouseButton) : Call → Bool
  | Call.OnPlayerMove _ _ => decide (b = MouseButton.MouseButtonLeft)
  | Call.ShootMissile _ _ => decide (b = MouseButton.MouseButtonRight)
  | _ => false

/-- The package variable that records the last action forwarded for button `b`; no variable
exists for buttons other than left and right, for which no action is ever forwarded. -/
def GameControls.lastBtnActionTime (g : GameControls) : MouseButton → ℚ
  | MouseButton.MouseButtonLeft => g.lastLeftBtnActionTime
  | MouseButton.MouseButtonRight => g.lastRightBtnActionTime
  | MouseButton.other _ => 0

/-- Number of actions forwarded for button `b` in a call list. -/
def forwardedActions (b : MouseButton) (calls : List Call) : Nat :=
  calls.countP (Call.isActionOf b)

/-- Total number of actions forwarded for button `b` over a history. -/
def forwardedTotal (b : MouseButton) (hist : List (MouseInput × List Call)) : Nat :=
  (hist.map (fun x => forwardedActions b x.2)).sum

/-- Whether a call is a move command or part of spawning a missile. -/
def Call.isMoveOrMissile : Call → Bool
  | Call.OnPlayerMove _ _ => true
  | Call.ShootMissile _ _ => true
  | Call.CreateMissile _ _ _ => true
  | Call.SetRadians _ _ => true
  | Call.AddEntity _ => true
  | _ => false

/-- Whether a call changes, or registers a change of, the entity set of the map engine. -/
def Call.touchesEntities : Call → Bool
  | Call.SetRadians _ _ => true
  | Call.AddEntity _ => true
  | Call.RemoveEntity _ => true
  | _ => false

/-- The categories passed to the hover handler, in call order. -/
def hoverInvocations (calls : List Call) : List ActionableType :=
  calls.filterMap (fun c => match c with
    | Call.onHoverActionable item => some item
    | _ => none)

/-- The categories passed to the click handler, in call order. -/
def clickInvocations (calls : List Call) : List ActionableType :=
  calls.filterMap (fun c => match c with
    | Call.onClickActionable item => some item
    | _ => none)

/-- The camera moves in a call list, in call order. -/
def cameraMoves (calls : List Call) : List (ℚ × ℚ) :=
  calls.filterMap (fun c => match c with
    | Call.MoveCameraBy x y => some (x, y)
    | _ => none)

/-- A concrete instance of the collaborators: inclusive hit test, a projection that
divides by 32, and a missile table holding only record `59`. -/
def sampleEnv : Env :=
  { ScreenToWorld := fun x y => ((x : ℚ) / 32, (y : ℚ) / 32)
    IsInRect := Rectangle.containsInclusive
    CreateMissile := fun _ _ id =>
      if id = 59 then Except.ok ⟨1⟩ else Except.error "missile record not found"
    GetRadiansBetween := fun _ _ _ _ => 0
    escapeMenuOnMouseButtonDown := fun _ => (true, true)
    escapeMenuOnEnterKey := fun b => b }

/-- A freshly constructed `GameControls` with the hero at the origin. -/
def sampleControls : GameControls := NewGameControls 0 0 false

/-! ## Rounding to float64 -/

lemma roundHalfEven_le (q : ℚ) : (roundHalfEven q : ℚ) ≤ q + 1 / 2 := by
  unfold roundHalfEven
  have h1 := Int.floor_le q
  have h2 := Int.lt_floor_add_one q
  split_ifs <;> push_cast <;> linarith

lemma roundHalfEven_ge (q : ℚ) : q - 1 / 2 ≤ (roundHalfEven q : ℚ) := by
  unfold roundHalfEven
  have h1 := Int.floor_le q
  have h2 := Int.lt_floor_add_one q
  split_ifs <;> push_cast <;> linarith

lemma roundHalfEven_eq (q : ℚ) (n : Int) (h1 : (n : ℚ) - 1 / 2 < q) (h2 : q < n + 1 / 2) :
    roundHalfEven q = n := by
  have hle := roundHalfEven_le q
  have hge := roundHalfEven_ge q
  have ha : ((roundHalfEven q : Int) : ℚ) < ((n + 1 : Int) : ℚ) := by push_cast; linarith
  have hb : ((n - 1 : Int) : ℚ) < ((roundHalfEven q : Int) : ℚ) := by push_cast; linarith
  have ha2 := Int.cast_lt.mp ha
  have hb2 := Int.cast_lt.mp hb
  omega

lemma ulpExp_eq (x : ℚ) (L : Int) (hx : 0 < x) (hlo : (2 : ℚ) ^ L ≤ x)
    (hhi : x < (2 : ℚ) ^ (L + 1)) (hL : -1022 ≤ L) : ulpExp x = L - 52 := by
  have h2 : (1 : ℕ) < 2 := by norm_num
  have hlog : Int.log 2 x = L := by
    apply le_antisymm
    · have := (Int.lt_zpow_iff_log_lt h2 hx (x := L + 1)).mp (by exact_mod_cast hhi)
      omega
    · exact (Int.zpow_le_iff_le_log h2 hx).mp (by exact_mod_cast hlo)
  unfold ulpExp
  rw [abs_of_pos hx, hlog]
  exact max_eq_left (by omega)

/-- Evaluation of `roundF64` at a positive normal value away from a tie. -/
lemma roundF64_eval (x : ℚ) (L n : Int) (hx : 0 < x) (hlo : (2 : ℚ) ^ L ≤ x)
    (hhi : x < (2 : ℚ) ^ (L + 1)) (hL : -1022 ≤ L)
    (h1 : (n : ℚ) - 1 / 2 < x / 2 ^ (L - 52)) (h2 : x / 2 ^ (L - 52) < n + 1 / 2) :
    roundF64 x = n * 2 ^ (L - 52) := by
  unfold roundF64
  rw [ulpExp_eq x L hx hlo hhi hL, roundHalfEven_eq _ n h1 h2]

lemma roundF64_ge_quarter (x : ℚ) (h : 1 / 4 ≤ x) : 1 / 4 ≤ roundF64 x := by
  have hx : 0 < x := by linarith
  have h2 : (1 : ℕ) < 2 := by norm_num
  have hL : (-2 : Int) ≤ Int.log 2 x :=
    (Int.zpow_le_iff_le_log h2 hx).mp (by norm_num; linarith)
  have hlo : (2 : ℚ) ^ Int.log 2 x ≤ x := by
    have := Int.zpow_log_le_self h2 hx
    exact_mod_cast this
  have hhi : x < (2 : ℚ) ^ (Int.log 2 x + 1) := by
    have := Int.lt_zpow_succ_log_self h2 x
    exact_mod_cast this
  have he := ulpExp_eq x _ hx hlo hhi (by omega)
  have hpos : (0 : ℚ) < 2 ^ (Int.log 2 x - 52) := by positivity
  have hsplit : (2 : ℚ) ^ Int.log 2 x = 2 ^ 52 * 2 ^ (Int.log 2 x - 52) := by
    rw [show Int.log 2 x = (52 : Int) + (Int.log 2 x - 52) by ring, zpow_add₀ (by norm_num)]
    norm_num
  have hq : (2 : ℚ) ^ 52 ≤ x / 2 ^ (Int.log 2 x - 52) := by
    rw [le_div_iff₀ hpos, ← hsplit]; exact hlo
  have hr := roundHalfEven_ge (x / 2 ^ (Int.log 2 x - 52))
  have hr1 : ((2 ^ 52 - 1 : Int) : ℚ) < ((roundHalfEven (x / 2 ^ (Int.log 2 x - 52)) : Int) : ℚ) := by
    push_cast; linarith
  have hr2 := Int.cast_lt.mp hr1
  have hr3 : ((2 ^ 52 : Int) : ℚ) ≤ ((roundHalfEven (x / 2 ^ (Int.log 2 x - 52)) : Int) : ℚ) :=
    Int.cast_le.mpr (by omega)
  unfold roundF64
  rw [he]
  have hquarter : (1 / 4 : ℚ) ≤ 2 ^ Int.log 2 x := by
    have := zpow_le_zpow_right₀ (a := (2 : ℚ)) (by norm_num) hL
    norm_num at this ⊢
    linarith
  calc (1 / 4 : ℚ) ≤ 2 ^ Int.log 2 x := hquarter
    _ = 2 ^ 52 * 2 ^ (Int.log 2 x - 52) := hsplit
    _ ≤ _ := by
      apply mul_le_mul_of_nonneg_right _ hpos.le
      push_cast at hr3
      exact hr3


lemma roundF64_nonpos (x : ℚ) (h : x ≤ 0) : roundF64 x ≤ 0 := by
  unfold roundF64
  have hpos : (0 : ℚ) < 2 ^ ulpExp x := by positivity
  have hq : x / 2 ^ ulpExp x ≤ 0 := div_nonpos_of_nonpos_of_nonneg h hpos.le
  have hr := roundHalfEven_le (x / 2 ^ ulpExp x)
  have hr1 : ((roundHalfEven (x / 2 ^ ulpExp x) : Int) : ℚ) < ((1 : Int) : ℚ) := by
    push_cast; linarith
  have hr2 := Int.cast_lt.mp hr1
  have hr3 : ((roundHalfEven (x / 2 ^ ulpExp x) : Int) : ℚ) ≤ ((0 : Int) : ℚ) :=
    Int.cast_le.mpr (by omega)
  push_cast at hr3
  exact mul_nonpos_of_nonpos_of_nonneg hr3 hpos.le

lemma roundF64_lt_quarter (x : ℚ) (h : x < 1 / 4 - 1 / 2 ^ 56) : roundF64 x < 1 / 4 := by
  rcases le_or_lt x 0 with hx | hx
  · have := roundF64_nonpos x hx
    linarith
  · have h2 : (1 : ℕ) < 2 := by norm_num
    have hsmall : (0 : ℚ) < 1 / 2 ^ 56 := by positivity
    have hL : Int.log 2 x < -2 :=
      (Int.lt_zpow_iff_log_lt h2 hx).mp (by norm_num; linarith)
    have he : ulpExp x ≤ -55 := by
      unfold ulpExp
      rw [abs_of_pos hx]
      exact max_le (by omega) (by norm_num)
    obtain ⟨n, hn⟩ : ∃ n : ℕ, ulpExp x = -55 - (n : Int) :=
      ⟨(-55 - ulpExp x).toNat, by omega⟩
    have hpow : (2 : ℚ) ^ ulpExp x = 1 / (2 ^ 55 * 2 ^ n) := by
      rw [hn, sub_eq_add_neg, zpow_add₀ (by norm_num), zpow_neg _ (n : Int), zpow_natCast]
      norm_num
      field_simp
      ring
    have hn1 : (1 : ℚ) ≤ 2 ^ n := one_le_pow₀ (by norm_num)
    have hpos : (0 : ℚ) < 2 ^ 55 * 2 ^ n := by positivity
    unfold roundF64
    rw [hpow]
    have hq : x / (1 / (2 ^ 55 * 2 ^ n)) = x * (2 ^ 55 * 2 ^ n) := by
      field_simp
    rw [hq]
    have hr := roundHalfEven_le (x * (2 ^ 55 * 2 ^ n))
    have hlt : x * (2 ^ 55 * 2 ^ n) + 1 / 2 < 2 ^ 53 * 2 ^ n := by
      have : x * (2 ^ 55 * 2 ^ n) < (1 / 4 - 1 / 2 ^ 56) * (2 ^ 55 * 2 ^ n) :=
        mul_lt_mul_of_pos_right h hpos
      have e1 : (1 / 4 - 1 / 2 ^ 56 : ℚ) * (2 ^ 55 * 2 ^ n) = 2 ^ 53 * 2 ^ n - 2 ^ n / 2 := by
        norm_num
        ring
      rw [e1] at this
      linarith
    have hr1 : ((roundHalfEven (x * (2 ^ 55 * 2 ^ n)) : Int) : ℚ)
        < (((2 ^ 53 * 2 ^ n : ℕ) : Int) : ℚ) := by
      push_cast
      norm_num at hr hlt ⊢
      linarith
    have hr2 := Int.cast_lt.mp hr1
    have hr3 : ((roundHalfEven (x * (2 ^ 55 * 2 ^ n)) : Int) : ℚ)
        ≤ ((((2 ^ 53 * 2 ^ n : ℕ) : Int) - 1 : Int) : ℚ) := Int.cast_le.mpr (by omega)
    push_cast at hr3
    rw [mul_one_div, div_lt_iff₀ hpos]
    have : (1 / 4 : ℚ) * (2 ^ 55 * 2 ^ n) = 2 ^ 53 * 2 ^ n := by norm_num; ring
    rw [this]
    linarith

/-- A float64 value of at least 1/4 is an integer multiple of 2^-54. -/
lemma roundF64_fixed_grid (x : ℚ) (hfix : roundF64 x = x) (h : 1 / 4 ≤ x) :
    ∃ k : Int, x = (k : ℚ) / 2 ^ 54 := by
  have hx : 0 < x := by linarith
  have h2 : (1 : ℕ) < 2 := by norm_num
  have hL : (-2 : Int) ≤ Int.log 2 x :=
    (Int.zpow_le_iff_le_log h2 hx).mp (by norm_num; linarith)
  have hlo : (2 : ℚ) ^ Int.log 2 x ≤ x := by
    have := Int.zpow_log_le_self h2 hx
    exact_mod_cast this
  have hhi : x < (2 : ℚ) ^ (Int.log 2 x + 1) := by
    have := Int.lt_zpow_succ_log_self h2 x
    exact_mod_cast this
  have he := ulpExp_eq x _ hx hlo hhi (by omega)
  obtain ⟨m, hm⟩ : ∃ m : ℕ, Int.log 2 x - 52 = (m : Int) - 54 :=
    ⟨(Int.log 2 x + 2).toNat, by omega⟩
  have hpow : (2 : ℚ) ^ (Int.log 2 x - 52) = 2 ^ m / 2 ^ 54 := by
    rw [hm, sub_eq_add_neg, zpow_add₀ (by norm_num), zpow_neg, zpow_natCast]
    norm_num
    ring
  refine ⟨roundHalfEven (x / 2 ^ ulpExp x) * 2 ^ m, ?_⟩
  have := hfix
  unfold roundF64 at this
  rw [he, hpow] at this
  rw [he, hpow]
  push_cast
  rw [← mul_div_assoc] at this
  exact this.symm

/-- Between float64 values of which the smaller is at least 1/4, a difference that rounds
to 1/4 or more is 1/4 or more. -/
lemma roundF64_sub_exact (a b : ℚ) (ha : roundF64 a = a) (hb : roundF64 b = b)
    (hb4 : 1 / 4 ≤ b) (h : 1 / 4 ≤ roundF64 (a - b)) : 1 / 4 ≤ a - b := by
  by_contra hlt
  push_neg at hlt
  have hsmall : (0 : ℚ) < 1 / 2 ^ 56 := by positivity
  have hcontra : a - b < 1 / 4 - 1 / 2 ^ 56 := by
    rcases lt_or_le a (1 / 4) with ha4 | ha4
    · have : (1 / 2 ^ 56 : ℚ) < 1 / 4 := by norm_num
      linarith
    · obtain ⟨ka, hka⟩ := roundF64_fixed_grid a ha ha4
      obtain ⟨kb, hkb⟩ := roundF64_fixed_grid b hb hb4
      have hk : ((ka - kb : Int) : ℚ) < ((2 ^ 52 : Int) : ℚ) := by
        push_cast
        rw [hka, hkb] at hlt
        have : ((ka : ℚ) / 2 ^ 54 - kb / 2 ^ 54) * 2 ^ 54 < 1 / 4 * 2 ^ 54 :=
          mul_lt_mul_of_pos_right hlt (by positivity)
        have e : ((ka : ℚ) / 2 ^ 54 - kb / 2 ^ 54) * 2 ^ 54 = ka - kb := by field_simp
        rw [e] at this
        norm_num at this ⊢
        linarith
      have hk2 := Int.cast_lt.mp hk
      have hk3 : ((ka - kb : Int) : ℚ) ≤ ((2 ^ 52 - 1 : Int) : ℚ) := Int.cast_le.mpr (by omega)
      push_cast at hk3
      rw [hka, hkb]
      have : ((ka : ℚ) / 2 ^ 54 - kb / 2 ^ 54) = (ka - kb) / 2 ^ 54 := by ring
      rw [this]
      have : ((ka : ℚ) - kb) / 2 ^ 54 ≤ 4503599627370495 / 2 ^ 54 :=
        div_le_div_of_nonneg_right hk3 (by positivity)
      norm_num at this ⊢
      linarith
  have := roundF64_lt_quarter (a - b) hcontra
  linarith

lemma roundF64_zero : roundF64 0 = 0 := by
  unfold roundF64 roundHalfEven
  simp

/-! ## Hit testing -/

lemma hoverInvocations_append (a b : List Call) :
    hoverInvocations (a ++ b) = hoverInvocations a ++ hoverInvocations b := by
  simp [hoverInvocations, List.filterMap_append]

lemma hoverInvocations_onHoverActionable (item : ActionableType) :
    hoverInvocations (onHoverActionable item) = [item] := by
  unfold onHoverActionable hoverInvocations
  split_ifs <;> simp [List.filterMap_cons]

lemma clickInvocations_onClickActionable (item : ActionableType) :
    clickInvocations (onClickActionable item) = [item] := by
  unfold onClickActionable clickInvocations
  split_ifs <;> simp [List.filterMap_cons]

lemma onClickActionable_no_move (item : ActionableType) :
    ∀ c ∈ onClickActionable item, c.isMoveOrMissile = false := by
  unfold onClickActionable
  split_ifs <;> simp [Call.isMoveOrMissile]

lemma hoverLoop_eq (env : Env) (mx my : Int) (regions : List ActionableRegion) :
    hoverLoop env mx my regions
      = (regions.filter (fun r => env.IsInRect r.Rect mx my)).flatMap
          (fun r => onHoverActionable r.ActionableTypeId) := by
  induction regions with
  | nil => rfl
  | cons r rest ih =>
    by_cases h : env.IsInRect r.Rect mx my = true
    · simp [hoverLoop, h, ih]
    · simp [hoverLoop, h, ih]

lemma hoverInvocations_hoverLoop (env : Env) (mx my : Int) (regions : List ActionableRegion) :
    hoverInvocations (hoverLoop env mx my regions)
      = (regions.filter (fun r => env.IsInRect r.Rect mx my)).map
          (fun r => r.ActionableTypeId) := by
  induction regions with
  | nil => rfl
  | cons r rest ih =>
    by_cases h : env.IsInRect r.Rect mx my = true
    · simp [hoverLoop, h, ih, hoverInvocations_append, hoverInvocations_onHoverActionable]
    · simp [hoverLoop, h, ih]

lemma clickLoop_eq (env : Env) (mx my : Int) (regions : List ActionableRegion) :
    clickLoop env mx my regions
      = (regions.find? (fun r => env.IsInRect r.Rect mx my)).map
          (fun r => onClickActionable r.ActionableTypeId) := by
  induction regions with
  | nil => rfl
  | cons r rest ih =>
    by_cases h : env.IsInRect r.Rect mx my = true
    · simp [clickLoop, h]
    · simp [clickLoop, h, ih]

lemma clickInvocations_shootMissile (env : Env) (g : GameControls) (px py : ℚ) :
    clickInvocations (ShootMissile env g px py).calls = [] := by
  cases h : env.CreateMissile (goInt g.heroLocationX) (goInt g.heroLocationY) g.missileID <;>
    simp [ShootMissile, h, clickInvocations]

lemma separated_disjoint (a b : Rectangle) (h : a.separated b = true) (x y : Int) :
    ¬ (a.containsInclusive x y = true ∧ b.containsInclusive x y = true) := by
  simp only [Rectangle.separated, Rectangle.containsInclusive, Bool.or_eq_true, Bool.and_eq_true,
    decide_eq_true_eq] at *
  omega

lemma halfOpen_inclusive (r : Rectangle) (x y : Int) (h : r.containsHalfOpen x y = true) :
    r.containsInclusive x y = true := by
  simp only [Rectangle.containsHalfOpen, Rectangle.containsInclusive, Bool.and_eq_true,
    decide_eq_true_eq] at *
  omega

lemma newActionableRegions_separated :
    newActionableRegions.Pairwise (fun a b => a.Rect.separated b.Rect = true) := by
  decide

lemma filter_eq_singleton {α : Type} (p : α → Bool) (l : List α)
    (hp : l.Pairwise (fun a b => ¬ (p a = true ∧ p b = true))) (r : α) (hr : r ∈ l)
    (hpr : p r = true) : l.filter p = [r] ∧ l.find? p = some r := by
  induction l with
  | nil => exact absurd hr (List.not_mem_nil _)
  | cons a l ih =>
    rw [List.pairwise_cons] at hp
    rcases List.mem_cons.mp hr with rfl | hmem
    · have hnone : l.filter p = [] := by
        rw [List.filter_eq_nil_iff]
        intro b hb hpb
        exact hp.1 b hb ⟨hpr, hpb⟩
      simp [List.filter_cons, hpr, hnone]
    · have hpa : p a = false := by
        cases hpa : p a
        · rfl
        · exact absurd ⟨hpa, hpr⟩ (hp.1 r hmem)
      have := ih hp.2 hmem
      simp [List.filter_cons, List.find?_cons, hpa, this.1, this.2]

lemma filter_length_le_one {α : Type} (p : α → Bool) (l : List α)
    (hp : l.Pairwise (fun a b => ¬ (p a = true ∧ p b = true))) : (l.filter p).length ≤ 1 := by
  cases hf : l.filter p with
  | nil => simp
  | cons r rest =>
    have hr : r ∈ l.filter p := by rw [hf]; exact List.mem_cons_self _ _
    have := (filter_eq_singleton p l hp r (List.mem_filter.mp hr).1 (List.mem_filter.mp hr).2).1
    rw [hf] at this
    simp [this]

/-- C1: the eight rectangles of the table built by `NewGameControls` are pairwise disjoint under
inclusive containment, so at most one region contains a given point, under inclusive and under
half-open containment alike; hence, for any hit test that accepts only points of the inclusive
rectangle and with the escape menu closed, a point inside a region of the table reports exactly
that region's category to the hover handler in `OnMouseMove` and the same single category to the
click handler in `OnMouseButtonDown`. -/
theorem actionable_regions_disjoint (env : Env)
    (hin : ∀ r x y, env.IsInRect r x y = true → r.containsInclusive x y = true)
    (g : GameControls) (htable : g.actionableRegions = newActionableRegions)
    (hclosed : g.escapeMenuIsOpen = false) (x y : Int) (b : MouseButton) (now : ℚ) :
    newActionableRegions.length = 8 ∧
    newActionableRegions.Pairwise (fun r1 r2 => ∀ x y,
      ¬ (r1.Rect.containsInclusive x y = true ∧ r2.Rect.containsInclusive x y = true)) ∧
    (newActionableRegions.filter (fun r => r.Rect.containsInclusive x y)).length ≤ 1 ∧
    (newActionableRegions.filter (fun r => r.Rect.containsHalfOpen x y)).length ≤ 1 ∧
    (∀ r ∈ newActionableRegions, env.IsInRect r.Rect x y = true →
      hoverInvocations (OnMouseMove env g ⟨x, y⟩).calls = [r.ActionableTypeId] ∧
      clickInvocations (OnMouseButtonDown env g ⟨x, y, b⟩ now).calls = [r.ActionableTypeId]) := by
  have hsep := newActionableRegions_separated
  have hpair : ∀ (p : Rectangle → Bool),
      (∀ r, p r = true → r.containsInclusive x y = true) →
      newActionableRegions.Pairwise
        (fun r1 r2 => ¬ ((fun r => p r.Rect) r1 = true ∧ (fun r => p r.Rect) r2 = true)) := by
    intro p hp
    refine hsep.imp ?_
    intro r1 r2 h12 hboth
    exact separated_disjoint _ _ h12 x y ⟨hp _ hboth.1, hp _ hboth.2⟩
  refine ⟨rfl, ?_, ?_, ?_, ?_⟩
  · refine hsep.imp ?_
    intro r1 r2 h12 x y
    exact separated_disjoint _ _ h12 x y
  · exact filter_length_le_one _ _ (hpair (fun r => r.containsInclusive x y) (fun _ h => h))
  · exact filter_length_le_one _ _
      (hpair (fun r => r.containsHalfOpen x y) (fun r h => halfOpen_inclusive r x y h))
  · intro r hr hhit
    have hone := filter_eq_singleton (fun r => env.IsInRect r.Rect x y) newActionableRegions
      (hpair (fun r => env.IsInRect r x y) (fun r h => hin r x y h)) r hr hhit
    constructor
    · simp [OnMouseMove, hclosed, hoverInvocations_hoverLoop, htable, hone.1]
    · simp [OnMouseButtonDown, hclosed, clickLoop_eq, htable, hone.2,
        clickInvocations_onClickActionable]

/-- C1, evaluated under inclusive containment at the corner (272, 573) of the walk/run
region, one pixel left of the stamina region. -/
theorem actionable_regions_disjoint_witness :
    (∀ r x y, sampleEnv.IsInRect r x y = true → r.containsInclusive x y = true) ∧
    sampleControls.actionableRegions = newActionableRegions ∧
    sampleControls.escapeMenuIsOpen = false ∧
    hoverInvocations (OnMouseMove sampleEnv sampleControls ⟨272, 573⟩).calls = [walkRun] ∧
    clickInvocations (OnMouseButtonDown sampleEnv sampleControls
      ⟨272, 573, MouseButton.MouseButtonLeft⟩ 1).calls = [walkRun] :=
  ⟨fun _ _ _ h => h, rfl, rfl,
   (actionable_regions_disjoint sampleEnv (fun _ _ _ h => h) sampleControls rfl rfl 272 573
      MouseButton.MouseButtonLeft 1).2.2.2.2 ⟨walkRun, ⟨255, 573, 17, 20⟩⟩ (by decide) (by decide)⟩

/-- C2: with the escape menu closed, for every region table and point, `OnMouseMove` returns
false and invokes the hover handler once per region containing the point, in table order;
`OnMouseButtonDown` invokes the click handler exactly once, with the category of the first
region in table order containing the point, returns false, changes no state and issues no move
or missile call; when no region contains the point neither handler is invoked. -/
theorem click_first_hover_all (env : Env) (g : GameControls) (mx my : Int) (b : MouseButton)
    (now : ℚ) (hclosed : g.escapeMenuIsOpen = false) :
    (OnMouseMove env g ⟨mx, my⟩).ret = false ∧
    (OnMouseMove env g ⟨mx, my⟩).calls
      = (g.actionableRegions.filter (fun r => env.IsInRect r.Rect mx my)).flatMap
          (fun r => onHoverActionable r.ActionableTypeId) ∧
    hoverInvocations (OnMouseMove env g ⟨mx, my⟩).calls
      = (g.actionableRegions.filter (fun r => env.IsInRect r.Rect mx my)).map
          (fun r => r.ActionableTypeId) ∧
    (∀ r, g.actionableRegions.find? (fun r => env.IsInRect r.Rect mx my) = some r →
      OnMouseButtonDown env g ⟨mx, my, b⟩ now
        = ⟨false, g, onClickActionable r.ActionableTypeId⟩ ∧
      clickInvocations (OnMouseButtonDown env g ⟨mx, my, b⟩ now).calls = [r.ActionableTypeId] ∧
      ∀ c ∈ (OnMouseButtonDown env g ⟨mx, my, b⟩ now).calls, c.isMoveOrMissile = false) ∧
    (g.actionableRegions.filter (fun r => env.IsInRect r.Rect mx my) = [] →
      hoverInvocations (OnMouseMove env g ⟨mx, my⟩).calls = [] ∧
      clickInvocations (OnMouseButtonDown env g ⟨mx, my, b⟩ now).calls = []) := by
  refine ⟨?_, ?_, ?_, ?_, ?_⟩
  · simp [OnMouseMove, hclosed]
  · simp [OnMouseMove, hclosed, hoverLoop_eq]
  · simp [OnMouseMove, hclosed, hoverInvocations_hoverLoop]
  · intro r hr
    have hdown : OnMouseButtonDown env g ⟨mx, my, b⟩ now
        = ⟨false, g, onClickActionable r.ActionableTypeId⟩ := by
      simp [OnMouseButtonDown, hclosed, clickLoop_eq, hr]
    rw [hdown]
    exact ⟨rfl, clickInvocations_onClickActionable _, onClickActionable_no_move _⟩
  · intro hnone
    have hfind : g.actionableRegions.find? (fun r => env.IsInRect r.Rect mx my) = none := by
      rw [List.find?_eq_none]
      intro r hr hin
      have : r ∈ g.actionableRegions.filter (fun r => env.IsInRect r.Rect mx my) :=
        List.mem_filter.mpr ⟨hr, hin⟩
      rw [hnone] at this
      exact absurd this (List.not_mem_nil _)
    constructor
    · simp [OnMouseMove, hclosed, hoverInvocations_hoverLoop, hnone]
    · simp only [OnMouseButtonDown, hclosed, clickLoop_eq, hfind, Option.map_none']
      simp only [Bool.false_eq_true, if_false]
      split_ifs
      · simp [clickInvocations]
      · exact clickInvocations_shootMissile _ _ _ _
      · simp [clickInvocations]

/-- C2, evaluated on a table with a deliberate overlap: the second rectangle covers the lower right quarter of
the first. -/
theorem click_first_hover_all_witness :
    ({ sampleControls with actionableRegions :=
        [⟨xp, ⟨0, 0, 10, 10⟩⟩, ⟨stamina, ⟨5, 5, 10, 10⟩⟩] } : GameControls).escapeMenuIsOpen
      = false ∧
    hoverInvocations (OnMouseMove sampleEnv { sampleControls with actionableRegions :=
        [⟨xp, ⟨0, 0, 10, 10⟩⟩, ⟨stamina, ⟨5, 5, 10, 10⟩⟩] } ⟨7, 7⟩).calls = [xp, stamina] ∧
    clickInvocations (OnMouseButtonDown sampleEnv { sampleControls with actionableRegions :=
        [⟨xp, ⟨0, 0, 10, 10⟩⟩, ⟨stamina, ⟨5, 5, 10, 10⟩⟩] }
        ⟨7, 7, MouseButton.MouseButtonLeft⟩ 1).calls = [xp] :=
  ⟨rfl,
   (click_first_hover_all sampleEnv { sampleControls with actionableRegions :=
        [⟨xp, ⟨0, 0, 10, 10⟩⟩, ⟨stamina, ⟨5, 5, 10, 10⟩⟩] } 7 7
        MouseButton.MouseButtonLeft 1 rfl).2.2.1.trans (by decide),
   ((click_first_hover_all sampleEnv { sampleControls with actionableRegions :=
        [⟨xp, ⟨0, 0, 10, 10⟩⟩, ⟨stamina, ⟨5, 5, 10, 10⟩⟩] } 7 7
        MouseButton.MouseButtonLeft 1 rfl).2.2.2.1 ⟨xp, ⟨0, 0, 10, 10⟩⟩ (by decide)).2.1⟩

/-! ## Mouse repeat rate limit -/

lemma shootMissile_last (env : Env) (g : GameControls) (px py : ℚ) :
    (ShootMissile env g px py).g.lastLeftBtnActionTime = g.lastLeftBtnActionTime ∧
    (ShootMissile env g px py).g.lastRightBtnActionTime = g.lastRightBtnActionTime ∧
    (ShootMissile env g px py).g.escapeMenuIsOpen = g.escapeMenuIsOpen ∧
    (ShootMissile env g px py).g.actionableRegions = g.actionableRegions := by
  cases h : env.CreateMissile (goInt g.heroLocationX) (goInt g.heroLocationY) g.missileID <;>
    simp [ShootMissile, h]

lemma forwardedActions_nil (b : MouseButton) : forwardedActions b [] = 0 := rfl

lemma shootMissile_forwarded (env : Env) (g : GameControls) (px py : ℚ) (b : MouseButton) :
    forwardedActions b (ShootMissile env g px py).calls
      = if b = MouseButton.MouseButtonRight then 1 else 0 := by
  cases h : env.CreateMissile (goInt g.heroLocationX) (goInt g.heroLocationY) g.missileID <;>
    by_cases hb : b = MouseButton.MouseButtonRight <;>
    simp [ShootMissile, h, forwardedActions, Call.isActionOf, hb, List.countP_cons]

lemma shootMissile_head (env : Env) (g : GameControls) (px py : ℚ) :
    (ShootMissile env g px py).calls.head? = some (Call.ShootMissile px py) := by
  cases h : env.CreateMissile (goInt g.heroLocationX) (goInt g.heroLocationY) g.missileID <;>
    simp [ShootMissile, h]

lemma repeat_left (env : Env) (g : GameControls) (event : MouseEvent) (now : ℚ)
    (hb : event.Button = MouseButton.MouseButtonLeft)
    (hthr : F64.sub now g.lastLeftBtnActionTime ≥ mouseBtnActionsTreshhold) :
    OnMouseButtonRepeat env g event now
      = ⟨true, { g with lastLeftBtnActionTime := now },
          [Call.OnPlayerMove (truncTenth (env.ScreenToWorld event.X event.Y).1)
            (truncTenth (env.ScreenToWorld event.X event.Y).2)]⟩ := by
  simp [OnMouseButtonRepeat, hb, hthr]

lemma repeat_right (env : Env) (g : GameControls) (event : MouseEvent) (now : ℚ)
    (hb : event.Button = MouseButton.MouseButtonRight)
    (hthr : F64.sub now g.lastRightBtnActionTime ≥ mouseBtnActionsTreshhold) :
    OnMouseButtonRepeat env g event now
      = ⟨true,
          (ShootMissile env { g with lastRightBtnActionTime := now }
            (truncTenth (env.ScreenToWorld event.X event.Y).1)
            (truncTenth (env.ScreenToWorld event.X event.Y).2)).g,
          (ShootMissile env { g with lastRightBtnActionTime := now }
            (truncTenth (env.ScreenToWorld event.X event.Y).1)
            (truncTenth (env.ScreenToWorld event.X event.Y).2)).calls⟩ := by
  simp [OnMouseButtonRepeat, hb, hthr]

lemma repeat_idle (env : Env) (g : GameControls) (event : MouseEvent) (now : ℚ)
    (hl : ¬ (event.Button = MouseButton.MouseButtonLeft ∧
      F64.sub now g.lastLeftBtnActionTime ≥ mouseBtnActionsTreshhold))
    (hr : ¬ (event.Button = MouseButton.MouseButtonRight ∧
      F64.sub now g.lastRightBtnActionTime ≥ mouseBtnActionsTreshhold)) :
    OnMouseButtonRepeat env g event now = ⟨true, g, []⟩ := by
  unfold OnMouseButtonRepeat
  simp only [if_neg hl, if_neg hr]

/-- What one repeat event does to the rate-limit state of button `b`. -/
lemma repeat_step (env : Env) (g : GameControls) (event : MouseEvent) (now : ℚ)
    (b : MouseButton) :
    (0 < forwardedActions b (OnMouseButtonRepeat env g event now).calls →
      F64.sub now (g.lastBtnActionTime b) ≥ mouseBtnActionsTreshhold ∧
      (OnMouseButtonRepeat env g event now).g.lastBtnActionTime b = now) ∧
    ((OnMouseButtonRepeat env g event now).g.lastBtnActionTime b = g.lastBtnActionTime b ∨
      (OnMouseButtonRepeat env g event now).g.lastBtnActionTime b = now) := by
  by_cases hl : event.Button = MouseButton.MouseButtonLeft ∧
      F64.sub now g.lastLeftBtnActionTime ≥ mouseBtnActionsTreshhold
  · rw [repeat_left env g event now hl.1 hl.2]
    cases b <;>
      simp [forwardedActions, Call.isActionOf, GameControls.lastBtnActionTime, hl.2]
  · by_cases hr : event.Button = MouseButton.MouseButtonRight ∧
        F64.sub now g.lastRightBtnActionTime ≥ mouseBtnActionsTreshhold
    · rw [repeat_right env g event now hr.1 hr.2]
      cases b <;>
        simp [shootMissile_forwarded, GameControls.lastBtnActionTime, shootMissile_last, hr.2]
    · rw [repeat_idle env g event now hl hr]
      simp [forwardedActions]

/-- What one button-down event does to the rate-limit state of button `b`. -/
lemma down_step (env : Env) (g : GameControls) (event : MouseEvent) (now : ℚ)
    (b : MouseButton) :
    (0 < forwardedActions b (OnMouseButtonDown env g event now).calls →
      (OnMouseButtonDown env g event now).g.lastBtnActionTime b = now) ∧
    ((OnMouseButtonDown env g event now).g.lastBtnActionTime b = g.lastBtnActionTime b ∨
      (OnMouseButtonDown env g event now).g.lastBtnActionTime b = now) := by
  unfold OnMouseButtonDown
  cases hopen : g.escapeMenuIsOpen
  · simp only [Bool.false_eq_true, if_false]
    cases hloop : clickLoop env event.X event.Y g.actionableRegions with
    | some calls =>
      have hcalls : forwardedActions b calls = 0 := by
        rw [clickLoop_eq] at hloop
        obtain ⟨r, -, hr⟩ := Option.map_eq_some'.mp hloop
        rw [← hr]
        unfold onClickActionable
        split_ifs <;> simp [forwardedActions, Call.isActionOf]
      simp [hcalls]
    | none =>
      simp only []
      split_ifs with h1 h2
      · cases b <;> simp [forwardedActions, Call.isActionOf, GameControls.lastBtnActionTime]
      · cases b <;>
          simp [shootMissile_forwarded, GameControls.lastBtnActionTime, shootMissile_last]
      · simp [forwardedActions]
  · cases b <;> simp [forwardedActions, Call.isActionOf, GameControls.lastBtnActionTime]

lemma stepMouse_step (env : Env) (g : GameControls) (i : MouseInput) (b : MouseButton) :
    (0 < forwardedActions b (stepMouse env g i).calls →
      (i.isRepeat = true → F64.sub i.now (g.lastBtnActionTime b) ≥ mouseBtnActionsTreshhold) ∧
      (stepMouse env g i).g.lastBtnActionTime b = i.now) ∧
    ((stepMouse env g i).g.lastBtnActionTime b = g.lastBtnActionTime b ∨
      (stepMouse env g i).g.lastBtnActionTime b = i.now) := by
  cases i with
  | Down event now =>
    have h := down_step env g event now b
    simp only [stepMouse, MouseInput.now, MouseInput.isRepeat]
    exact ⟨fun hf => ⟨fun hc => absurd hc (by decide), h.1 hf⟩, h.2⟩
  | Repeat event now =>
    have h := repeat_step env g event now b
    simp only [stepMouse, MouseInput.now, MouseInput.isRepeat]
    exact ⟨fun hf => ⟨fun _ => (h.1 hf).1, (h.1 hf).2⟩, h.2⟩

lemma threshold_quarter : mouseBtnActionsTreshhold = 1 / 4 := by
  norm_num [mouseBtnActionsTreshhold]

lemma isF64_fixed (x : ℚ) (h : isF64 x = true) : roundF64 x = x := by
  simp only [isF64, Bool.and_eq_true, decide_eq_true_eq] at h
  exact h.1

/-- A positive rational `n * 2^(L-52)` in the binade of `2^L`, within the exponent range, is a
float64 value. -/
lemma isF64_of_grid (x : ℚ) (L n : Int) (hx : 0 < x) (hlo : (2 : ℚ) ^ L ≤ x)
    (hhi : x < (2 : ℚ) ^ (L + 1)) (hL : -1022 ≤ L) (hU : L ≤ 1023)
    (hn : x = n * 2 ^ (L - 52)) : isF64 x = true := by
  have hpos : (0 : ℚ) < 2 ^ (L - 52) := by positivity
  have hq : x / 2 ^ (L - 52) = n := by rw [hn]; field_simp
  have hr := roundF64_eval x L n hx hlo hhi hL (by rw [hq]; linarith) (by rw [hq]; linarith)
  have hbig : (2 : ℚ) ^ (L + 1) ≤ 2 ^ (1024 : ℕ) := by
    rw [← zpow_natCast]
    exact zpow_le_zpow_right₀ (by norm_num) (by push_cast; omega)
  simp only [isF64, Bool.and_eq_true, decide_eq_true_eq]
  exact ⟨by rw [hr, ← hn], by rw [abs_of_pos hx]; linarith⟩

/-- The test of `OnMouseButtonRepeat` passes only for a difference of at least
`0.25 - 2^-56`. -/
lemma sub_ge_threshold (a b : ℚ) (h : F64.sub a b ≥ mouseBtnActionsTreshhold) :
    a - b ≥ 1 / 4 - 1 / 2 ^ 56 := by
  by_contra hlt
  push_neg at hlt
  have := roundF64_lt_quarter (a - b) hlt
  rw [threshold_quarter] at h
  unfold F64.sub at h
  linarith

/-- The test of `OnMouseButtonRepeat` passes for every difference of at least `0.25`. -/
lemma threshold_of_sub_ge (a b : ℚ) (h : a - b ≥ 1 / 4) :
    F64.sub a b ≥ mouseBtnActionsTreshhold := by
  rw [threshold_quarter]
  exact roundF64_ge_quarter (a - b) h

/-- Every repeat event that forwards an action for `b` does so at least `0.25 - 2^-56` after
any lower bound `L` of the recorded last-action time and of the clock readings. -/
lemma runMouse_after (env : Env) (b : MouseButton) (L : ℚ) (inputs : List MouseInput) :
    ∀ g : GameControls, L ≤ g.lastBtnActionTime b → (∀ i ∈ inputs, L ≤ i.now) →
      ∀ x ∈ runMouse env g inputs, x.1.isRepeat = true → 0 < forwardedActions b x.2 →
        x.1.now - L ≥ 1 / 4 - 1 / 2 ^ 56 := by
  induction inputs with
  | nil => intro g _ _ x hx; simp [runMouse] at hx
  | cons i rest ih =>
    intro g hL hall x hx hrep hfwd
    have hstep := stepMouse_step env g i b
    simp only [runMouse, List.mem_cons] at hx
    rcases hx with rfl | hx
    · have h1 := sub_ge_threshold _ _ ((hstep.1 hfwd).1 hrep)
      simp only [ge_iff_le] at *
      linarith
    · have hL2 : L ≤ (stepMouse env g i).g.lastBtnActionTime b := by
        rcases hstep.2 with h | h
        · rw [h]; exact hL
        · rw [h]; exact hall i (List.mem_cons_self _ _)
      exact ih _ hL2 (fun j hj => hall j (List.mem_cons_of_mem _ hj)) x hx hrep hfwd

/-- With float64 clock readings and a lower bound `L` of at least `0.25`, the distance is at
least `0.25`: the differences the handler forms are exact. -/
lemma runMouse_after_exact (env : Env) (b : MouseButton) (L : ℚ) (hL4 : 1 / 4 ≤ L)
    (inputs : List MouseInput) :
    ∀ g : GameControls, roundF64 (g.lastBtnActionTime b) = g.lastBtnActionTime b →
      L ≤ g.lastBtnActionTime b → (∀ i ∈ inputs, L ≤ i.now) →
      (∀ i ∈ inputs, isF64 i.now = true) →
      ∀ x ∈ runMouse env g inputs, x.1.isRepeat = true → 0 < forwardedActions b x.2 →
        x.1.now - L ≥ 1 / 4 := by
  induction inputs with
  | nil => intro g _ _ _ _ x hx; simp [runMouse] at hx
  | cons i rest ih =>
    intro g hfix hL hall hfl x hx hrep hfwd
    have hstep := stepMouse_step env g i b
    have hinow := isF64_fixed _ (hfl i (List.mem_cons_self _ _))
    simp only [runMouse, List.mem_cons] at hx
    rcases hx with rfl | hx
    · have h0 := (hstep.1 hfwd).1 hrep
      rw [threshold_quarter] at h0
      have h1 := roundF64_sub_exact _ _ hinow hfix (le_trans hL4 hL) h0
      simp only [ge_iff_le] at *
      linarith
    · have hL2 : L ≤ (stepMouse env g i).g.lastBtnActionTime b := by
        rcases hstep.2 with h | h
        · rw [h]; exact hL
        · rw [h]; exact hall i (List.mem_cons_self _ _)
      have hfix2 : roundF64 ((stepMouse env g i).g.lastBtnActionTime b)
          = (stepMouse env g i).g.lastBtnActionTime b := by
        rcases hstep.2 with h | h
        · rw [h]; exact hfix
        · rw [h]; exact hinow
      exact ih _ hfix2 hL2 (fun j hj => hall j (List.mem_cons_of_mem _ hj))
        (fun j hj => hfl j (List.mem_cons_of_mem _ hj)) x hx hrep hfwd

lemma down_left_free (env : Env) (g : GameControls) (event : MouseEvent) (now : ℚ)
    (hclosed : g.escapeMenuIsOpen = false)
    (hfree : ∀ r ∈ g.actionableRegions, ¬ env.IsInRect r.Rect event.X event.Y = true)
    (hb : event.Button = MouseButton.MouseButtonLeft) :
    OnMouseButtonDown env g event now
      = ⟨true, { g with lastLeftBtnActionTime := now },
          [Call.OnPlayerMove (truncTenth (env.ScreenToWorld event.X event.Y).1)
            (truncTenth (env.ScreenToWorld event.X event.Y).2)]⟩ := by
  have hnone : g.actionableRegions.find? (fun r => env.IsInRect r.Rect event.X event.Y)
      = none := by
    rw [List.find?_eq_none]
    exact hfree
  simp [OnMouseButtonDown, hclosed, clickLoop_eq, hnone, hb]

lemma sampleRegions_miss_origin :
    ∀ r ∈ sampleControls.actionableRegions, ¬ sampleEnv.IsInRect r.Rect 0 0 = true := by
  decide

/-- C5, as stated, fails: a left click at clock reading `2^-70` followed by a left repeat at
`0.25` forwards both actions, because the float64 difference `0.25 - 2^-70` rounds to `0.25`;
the two forwarded actions are less than 0.25 apart. -/
theorem repeat_rate_limit_rounding :
    isF64 (1 / 2 ^ 70) = true ∧ isF64 (1 / 4) = true ∧ ((1 : ℚ) / 2 ^ 70 ≤ 1 / 4) ∧
    (runMouse sampleEnv sampleControls
        [MouseInput.Down ⟨0, 0, MouseButton.MouseButtonLeft⟩ (1 / 2 ^ 70),
          MouseInput.Repeat ⟨0, 0, MouseButton.MouseButtonLeft⟩ (1 / 4)]).map
      (fun x => (x.1.isRepeat, forwardedActions MouseButton.MouseButtonLeft x.2))
      = [(false, 1), (true, 1)] ∧
    ((1 : ℚ) / 4 - 1 / 2 ^ 70 < 0.25) := by
  have hdown := down_left_free sampleEnv sampleControls ⟨0, 0, MouseButton.MouseButtonLeft⟩
    (1 / 2 ^ 70) rfl sampleRegions_miss_origin rfl
  have hround : roundF64 (1 / 4 - 1 / 2 ^ 70) = 1 / 4 := by
    rw [roundF64_eval (1 / 4 - 1 / 2 ^ 70) (-3) (2 ^ 53) (by norm_num) (by norm_num)
      (by norm_num) (by norm_num) (by norm_num) (by norm_num)]
    norm_num
  have hrep := repeat_left sampleEnv
    { sampleControls with lastLeftBtnActionTime := 1 / 2 ^ 70 }
    ⟨0, 0, MouseButton.MouseButtonLeft⟩ (1 / 4) rfl
    (by rw [threshold_quarter]; simp only [F64.sub]; rw [hround])
  refine ⟨?_, ?_, by norm_num, ?_, by norm_num⟩
  · exact isF64_of_grid _ (-70) (2 ^ 52) (by norm_num) (by norm_num) (by norm_num)
      (by norm_num) (by norm_num) (by norm_num)
  · exact isF64_of_grid _ (-2) (2 ^ 52) (by norm_num) (by norm_num) (by norm_num)
      (by norm_num) (by norm_num) (by norm_num)
  · simp only [runMouse, stepMouse, hdown, hrep, List.map, MouseInput.isRepeat]
    simp [forwardedActions, Call.isActionOf]

/-- C5, amended: in every sequence of `OnMouseButtonDown` and `OnMouseButtonRepeat` events with
non-decreasing float64 clock readings, a repeat event at time `t` that forwards an action for a
button comes after every earlier event, at time `t'`, that forwarded an action for the same
button by either handler, the previous one in particular, with `t - t' ≥ 0.25 - 2^-56`, and
with `t - t' ≥ 0.25` whenever `t' ≥ 0.25`; the same bounds hold between any two actions
forwarded by repeat events for one button. -/
theorem repeat_rate_limit (env : Env) (g : GameControls) (b : MouseButton)
    (inputs : List MouseInput) (hmono : inputs.Pairwise (fun i j => i.now ≤ j.now))
    (hfloat : ∀ i ∈ inputs, isF64 i.now = true) :
    (runMouse env g inputs).Pairwise (fun x z =>
      z.1.isRepeat = true → 0 < forwardedActions b z.2 → 0 < forwardedActions b x.2 →
        z.1.now - x.1.now ≥ 1 / 4 - 1 / 2 ^ 56 ∧
        (1 / 4 ≤ x.1.now → z.1.now - x.1.now ≥ 1 / 4)) := by
  induction inputs generalizing g with
  | nil => simp [runMouse]
  | cons i rest ih =>
    rw [List.pairwise_cons] at hmono
    simp only [runMouse, List.pairwise_cons]
    refine ⟨?_, ih _ hmono.2 (fun j hj => hfloat j (List.mem_cons_of_mem _ hj))⟩
    intro z hz hrep hfz hfx
    have hlast := ((stepMouse_step env g i b).1 hfx).2
    have hinow := isF64_fixed _ (hfloat i (List.mem_cons_self _ _))
    refine ⟨runMouse_after env b i.now rest _ (le_of_eq hlast.symm) hmono.1 z hz hrep hfz, ?_⟩
    intro h4
    exact runMouse_after_exact env b i.now h4 rest _ (by rw [hlast]; exact hinow)
      (le_of_eq hlast.symm) hmono.1 (fun j hj => hfloat j (List.mem_cons_of_mem _ hj))
      z hz hrep hfz

lemma isF64_one : isF64 1 = true :=
  isF64_of_grid 1 0 (2 ^ 52) (by norm_num) (by norm_num) (by norm_num) (by norm_num)
    (by norm_num) (by norm_num)

lemma isF64_nine_eighths : isF64 (9 / 8) = true :=
  isF64_of_grid (9 / 8) 0 (9 * 2 ^ 49) (by norm_num) (by norm_num) (by norm_num) (by norm_num)
    (by norm_num) (by norm_num)

lemma isF64_eleven_eighths : isF64 (11 / 8) = true :=
  isF64_of_grid (11 / 8) 0 (11 * 2 ^ 49) (by norm_num) (by norm_num) (by norm_num)
    (by norm_num) (by norm_num) (by norm_num)

/-- C5 amended, evaluated on a left click at time 1 followed by left repeats at 9/8 and
11/8. -/
theorem repeat_rate_limit_witness :
    [MouseInput.Down ⟨0, 0, MouseButton.MouseButtonLeft⟩ 1,
      MouseInput.Repeat ⟨0, 0, MouseButton.MouseButtonLeft⟩ (9 / 8),
      MouseInput.Repeat ⟨0, 0, MouseButton.MouseButtonLeft⟩ (11 / 8)].Pairwise
        (fun i j => i.now ≤ j.now) ∧
    (runMouse sampleEnv sampleControls
      [MouseInput.Down ⟨0, 0, MouseButton.MouseButtonLeft⟩ 1,
        MouseInput.Repeat ⟨0, 0, MouseButton.MouseButtonLeft⟩ (9 / 8),
        MouseInput.Repeat ⟨0, 0, MouseButton.MouseButtonLeft⟩ (11 / 8)]).Pairwise (fun x z =>
      z.1.isRepeat = true → 0 < forwardedActions MouseButton.MouseButtonLeft z.2 →
        0 < forwardedActions MouseButton.MouseButtonLeft x.2 →
        z.1.now - x.1.now ≥ 1 / 4 - 1 / 2 ^ 56 ∧
        (1 / 4 ≤ x.1.now → z.1.now - x.1.now ≥ 1 / 4)) :=
  ⟨by simp [MouseInput.now]; norm_num,
   repeat_rate_limit sampleEnv sampleControls MouseButton.MouseButtonLeft _
      (by simp [MouseInput.now]; norm_num)
      (by
        intro i hi
        simp only [List.mem_cons, List.mem_singleton, List.not_mem_nil, or_false] at hi
        rcases hi with rfl | rfl | rfl
        · exact isF64_one
        · exact isF64_nine_eighths
        · exact isF64_eleven_eighths)⟩

lemma sub_lt_threshold (a b : ℚ) (h : a - b < 1 / 4 - 1 / 2 ^ 56) :
    ¬ F64.sub a b ≥ mouseBtnActionsTreshhold := by
  intro hge
  have := sub_ge_threshold a b hge
  linarith

lemma isF64_eighth : isF64 (1 / 8) = true :=
  isF64_of_grid (1 / 8) (-3) (2 ^ 52) (by norm_num) (by norm_num) (by norm_num) (by norm_num)
    (by norm_num) (by norm_num)

lemma isF64_three_sixteenths : isF64 (3 / 16) = true :=
  isF64_of_grid (3 / 16) (-3) (3 * 2 ^ 51) (by norm_num) (by norm_num) (by norm_num)
    (by norm_num) (by norm_num) (by norm_num)

lemma isF64_half : isF64 (1 / 2) = true :=
  isF64_of_grid (1 / 2) (-1) (2 ^ 52) (by norm_num) (by norm_num) (by norm_num) (by norm_num)
    (by norm_num) (by norm_num)

/-- C4, as stated, fails: from the initial state two left repeats at times 1/8 and 3/16,
less than 0.25 apart, forward no action instead of one, and two left repeats at 1/8 and 1/2,
more than 0.25 apart, forward one action instead of two. -/
theorem repeat_debounce_before_threshold :
    sampleControls.lastLeftBtnActionTime = 0 ∧ sampleControls.lastRightBtnActionTime = 0 ∧
    (isF64 (1 / 8) = true ∧ isF64 (3 / 16) = true ∧ isF64 (1 / 2) = true) ∧
    ((0 : ℚ) ≤ 1 / 8 ∧ (1 / 8 : ℚ) ≤ 3 / 16 ∧ (3 / 16 : ℚ) - 1 / 8 < 0.25) ∧
    forwardedTotal MouseButton.MouseButtonLeft (runMouse sampleEnv sampleControls
      [MouseInput.Repeat ⟨0, 0, MouseButton.MouseButtonLeft⟩ (1 / 8),
        MouseInput.Repeat ⟨0, 0, MouseButton.MouseButtonLeft⟩ (3 / 16)]) = 0 ∧
    ((1 / 8 : ℚ) ≤ 1 / 2 ∧ (1 / 2 : ℚ) - 1 / 8 ≥ 0.25) ∧
    forwardedTotal MouseButton.MouseButtonLeft (runMouse sampleEnv sampleControls
      [MouseInput.Repeat ⟨0, 0, MouseButton.MouseButtonLeft⟩ (1 / 8),
        MouseInput.Repeat ⟨0, 0, MouseButton.MouseButtonLeft⟩ (1 / 2)]) = 1 := by
  have h1 : OnMouseButtonRepeat sampleEnv sampleControls
      ⟨0, 0, MouseButton.MouseButtonLeft⟩ (1 / 8) = ⟨true, sampleControls, []⟩ := by
    apply repeat_idle
    · intro h
      exact sub_lt_threshold _ _
        (by norm_num [sampleControls, NewGameControls]) h.2
    · simp
  have h2 : OnMouseButtonRepeat sampleEnv sampleControls
      ⟨0, 0, MouseButton.MouseButtonLeft⟩ (3 / 16) = ⟨true, sampleControls, []⟩ := by
    apply repeat_idle
    · intro h
      exact sub_lt_threshold _ _
        (by norm_num [sampleControls, NewGameControls]) h.2
    · simp
  have h4 : forwardedActions MouseButton.MouseButtonLeft (OnMouseButtonRepeat sampleEnv
      sampleControls ⟨0, 0, MouseButton.MouseButtonLeft⟩ (1 / 2)).calls = 1 := by
    rw [repeat_left _ _ _ _ rfl
      (threshold_of_sub_ge _ _ (by norm_num [sampleControls, NewGameControls]))]
    simp [forwardedActions, Call.isActionOf]
  refine ⟨rfl, rfl, ⟨isF64_eighth, isF64_three_sixteenths, isF64_half⟩, by norm_num, ?_,
    by norm_num, ?_⟩
  · simp only [forwardedTotal, runMouse, stepMouse, h1, h2]
    rfl
  · simp only [forwardedTotal, runMouse, stepMouse, h1, List.map, List.sum_cons, List.sum_nil,
      h4, forwardedActions_nil]
    rfl

/-- C4, amended: from a state with `lastLeftBtnActionTime = lastRightBtnActionTime = 0`, for
the left and for the right button and all float64 clock readings `0.25 ≤ t1 ≤ t2`, two
successive `OnMouseButtonRepeat` events for that button at times `t1` and `t2` forward exactly
one action when `t2 - t1 < 0.25` and two actions when `t2 - t1 ≥ 0.25`. -/
theorem repeat_debounce (env : Env) (g : GameControls) (b : MouseButton)
    (e1 e2 : MouseEvent) (t1 t2 : ℚ)
    (hleft : g.lastLeftBtnActionTime = 0) (hright : g.lastRightBtnActionTime = 0)
    (hb : b = MouseButton.MouseButtonLeft ∨ b = MouseButton.MouseButtonRight)
    (he1 : e1.Button = b) (he2 : e2.Button = b)
    (hf1 : isF64 t1 = true) (hf2 : isF64 t2 = true) (ht1 : 1 / 4 ≤ t1) (_ht : t1 ≤ t2) :
    (t2 - t1 < 1 / 4 → forwardedTotal b
      (runMouse env g [MouseInput.Repeat e1 t1, MouseInput.Repeat e2 t2]) = 1) ∧
    (t2 - t1 ≥ 1 / 4 → forwardedTotal b
      (runMouse env g [MouseInput.Repeat e1 t1, MouseInput.Repeat e2 t2]) = 2) := by
  have hthr := threshold_quarter
  have hnot : t2 - t1 < 1 / 4 → ¬ F64.sub t2 t1 ≥ mouseBtnActionsTreshhold := by
    intro hlt hge
    rw [hthr] at hge
    have := roundF64_sub_exact t2 t1 (isF64_fixed _ hf2) (isF64_fixed _ hf1) ht1 hge
    linarith
  rcases hb with rfl | rfl
  · have hfirst := repeat_left env g e1 t1 he1
      (threshold_of_sub_ge _ _ (by rw [hleft]; linarith))
    constructor
    · intro hlt
      have hsecond := repeat_idle env { g with lastLeftBtnActionTime := t1 } e2 t2
        (fun h => hnot hlt h.2) (by simp [he2])
      simp [forwardedTotal, runMouse, stepMouse, hfirst, hsecond, forwardedActions,
        Call.isActionOf]
    · intro hge
      have hsecond := repeat_left env { g with lastLeftBtnActionTime := t1 } e2 t2 he2
        (threshold_of_sub_ge _ _ hge)
      simp [forwardedTotal, runMouse, stepMouse, hfirst, hsecond, forwardedActions,
        Call.isActionOf]
  · have hfirst := repeat_right env g e1 t1 he1
      (threshold_of_sub_ge _ _ (by rw [hright]; linarith))
    have hlast := (shootMissile_last env { g with lastRightBtnActionTime := t1 }
      (truncTenth (env.ScreenToWorld e1.X e1.Y).1) (truncTenth (env.ScreenToWorld e1.X e1.Y).2)).2.1
    constructor
    · intro hlt
      have hsecond := repeat_idle env (OnMouseButtonRepeat env g e1 t1).g e2 t2
        (by simp [he2]) (by rw [hfirst, hlast]; exact fun h => hnot hlt h.2)
      simp only [forwardedTotal, runMouse, stepMouse, hsecond]
      simp [hfirst, shootMissile_forwarded, forwardedActions_nil]
    · intro hge
      have hsecond := repeat_right env (OnMouseButtonRepeat env g e1 t1).g e2 t2 he2
        (by rw [hfirst, hlast]; exact threshold_of_sub_ge _ _ hge)
      simp only [forwardedTotal, runMouse, stepMouse, hsecond]
      simp [hfirst, shootMissile_forwarded]

/-- C4 amended, evaluated on two right repeats at times 1 and 9/8. -/
theorem repeat_debounce_witness :
    (isF64 1 = true ∧ isF64 (9 / 8) = true) ∧
    ((1 : ℚ) / 4 ≤ 1 ∧ (1 : ℚ) ≤ 9 / 8 ∧ (9 / 8 : ℚ) - 1 < 1 / 4) ∧
    forwardedTotal MouseButton.MouseButtonRight (runMouse sampleEnv sampleControls
      [MouseInput.Repeat ⟨0, 0, MouseButton.MouseButtonRight⟩ 1,
        MouseInput.Repeat ⟨0, 0, MouseButton.MouseButtonRight⟩ (9 / 8)]) = 1 :=
  ⟨⟨isF64_one, isF64_nine_eighths⟩, by norm_num,
   (repeat_debounce sampleEnv sampleControls MouseButton.MouseButtonRight
      ⟨0, 0, MouseButton.MouseButtonRight⟩ ⟨0, 0, MouseButton.MouseButtonRight⟩ 1 (9 / 8)
      rfl rfl (Or.inr rfl) rfl rfl isF64_one isF64_nine_eighths (by norm_num)
      (by norm_num)).1 (by norm_num)⟩

lemma onClickActionable_forwarded (b : MouseButton) (item : ActionableType) :
    forwardedActions b (onClickActionable item) = 0 := by
  unfold onClickActionable
  split_ifs <;> simp [forwardedActions, Call.isActionOf]

/-- The button-down handler forwards an action for the left or right button exactly when the
escape menu is closed and no region of the table contains the point. -/
lemma down_forwarded (env : Env) (g : GameControls) (event : MouseEvent) (now : ℚ)
    (hb : event.Button = MouseButton.MouseButtonLeft ∨
      event.Button = MouseButton.MouseButtonRight) :
    forwardedActions event.Button (OnMouseButtonDown env g event now).calls
      = if g.escapeMenuIsOpen = true ∨
          ∃ r ∈ g.actionableRegions, env.IsInRect r.Rect event.X event.Y = true
        then 0 else 1 := by
  unfold OnMouseButtonDown
  cases hopen : g.escapeMenuIsOpen
  · simp only [Bool.false_eq_true, if_false, false_or]
    by_cases hhit : ∃ r ∈ g.actionableRegions, env.IsInRect r.Rect event.X event.Y = true
    · have hsome := List.find?_isSome.mpr hhit
      obtain ⟨r, hr2⟩ := Option.isSome_iff_exists.mp hsome
      rw [clickLoop_eq, hr2]
      simp [hhit, onClickActionable_forwarded]
    · have hnone : g.actionableRegions.find? (fun r => env.IsInRect r.Rect event.X event.Y)
          = none := by
        rw [List.find?_eq_none]
        intro r hr hin
        exact hhit ⟨r, hr, hin⟩
      rw [clickLoop_eq, hnone]
      simp only [Option.map_none', if_neg hhit]
      rcases hb with h | h
      · simp [h, forwardedActions, Call.isActionOf]
      · simp [h, shootMissile_forwarded]
  · simp [forwardedActions, Call.isActionOf]

lemma tdiv_num_den (f : ℚ) : Int.tdiv f.num f.den = if 0 ≤ f then ⌊f⌋ else ⌈f⌉ := by
  split_ifs with h
  · rw [Rat.floor_def]
    exact Int.tdiv_eq_ediv (Rat.num_nonneg.mpr h) (Int.ofNat_nonneg _)
  · have hneg : f.num < 0 := Rat.num_neg.mpr (not_le.mp h)
    have hc : ⌈f⌉ = -⌊-f⌋ := by rw [Int.floor_neg, neg_neg]
    rw [hc, Rat.floor_def, Rat.neg_num, Rat.neg_den]
    have := Int.tdiv_eq_ediv (a := -f.num) (b := (f.den : Int)) (by omega) (Int.ofNat_nonneg _)
    rw [← this, Int.neg_tdiv, neg_neg]

/-- Within the `int64` range `goInt` truncates toward zero. -/
lemma goInt_trunc (f : ℚ) :
    (0 ≤ f → f < 2 ^ 63 → (goInt f : ℚ) ≤ f ∧ f < goInt f + 1) ∧
    (f ≤ 0 → -2 ^ 63 ≤ f → f ≤ goInt f ∧ (goInt f : ℚ) - 1 < f) := by
  constructor
  · intro h0 h63
    have ht : Int.tdiv f.num f.den = ⌊f⌋ := by rw [tdiv_num_den, if_pos h0]
    have hlo : (0 : Int) ≤ ⌊f⌋ := Int.floor_nonneg.mpr h0
    have hhi : ⌊f⌋ < 2 ^ 63 := Int.floor_lt.mpr (by push_cast; exact h63)
    have hg : goInt f = ⌊f⌋ := by
      unfold goInt
      rw [ht, if_pos ⟨by omega, hhi⟩]
    rw [hg]
    exact ⟨Int.floor_le f, Int.lt_floor_add_one f⟩
  · intro h0 h63
    rcases eq_or_lt_of_le h0 with rfl | hneg
    · have hg : goInt 0 = 0 := by decide
      rw [hg]; norm_num
    · have ht : Int.tdiv f.num f.den = ⌈f⌉ := by rw [tdiv_num_den, if_neg (not_le.mpr hneg)]
      have hhi : ⌈f⌉ ≤ 0 := Int.ceil_le.mpr (by push_cast; exact h0)
      have hlo : -2 ^ 63 ≤ ⌈f⌉ := by
        have h1 : ((-2 ^ 63 : Int) : ℚ) ≤ ((⌈f⌉ : Int) : ℚ) := by
          push_cast; exact le_trans h63 (Int.le_ceil f)
        exact Int.cast_le.mp h1
      have hg : goInt f = ⌈f⌉ := by
        unfold goInt
        rw [ht, if_pos ⟨hlo, by omega⟩]
      rw [hg]
      have := Int.ceil_lt_add_one f
      exact ⟨Int.le_ceil f, by linarith⟩

/-- The value `roundF64 x` lies on the grid of spacing `2^ulpExp x`, at most half a step
from `x`. -/
lemma roundF64_near (x : ℚ) :
    (∃ n : Int, roundF64 x = n * 2 ^ ulpExp x) ∧ |roundF64 x - x| ≤ 2 ^ ulpExp x / 2 := by
  have hpos : (0 : ℚ) < 2 ^ ulpExp x := by positivity
  refine ⟨⟨roundHalfEven (x / 2 ^ ulpExp x), rfl⟩, ?_⟩
  have hle := roundHalfEven_le (x / 2 ^ ulpExp x)
  have hge := roundHalfEven_ge (x / 2 ^ ulpExp x)
  have hx : x = x / 2 ^ ulpExp x * 2 ^ ulpExp x := by field_simp
  have hd : roundF64 x - x
      = ((roundHalfEven (x / 2 ^ ulpExp x) : ℚ) - x / 2 ^ ulpExp x) * 2 ^ ulpExp x := by
    unfold roundF64
    rw [sub_mul, ← hx]
  rw [hd, abs_mul, abs_of_pos hpos]
  have habs : |(roundHalfEven (x / 2 ^ ulpExp x) : ℚ) - x / 2 ^ ulpExp x| ≤ 1 / 2 := by
    rw [abs_le]; constructor <;> linarith
  calc |(roundHalfEven (x / 2 ^ ulpExp x) : ℚ) - x / 2 ^ ulpExp x| * 2 ^ ulpExp x
      ≤ 1 / 2 * 2 ^ ulpExp x := mul_le_mul_of_nonneg_right habs hpos.le
    _ = 2 ^ ulpExp x / 2 := by ring

/-- C10: `OnMouseButtonRepeat` consults neither the escape-menu flag nor the region table: for
every state and every left-button repeat event at least 0.25 after `lastLeftBtnActionTime` it
calls `OnPlayerMove` with the truncated world point, records the time and returns true; for the
right button it likewise calls `ShootMissile` with the truncated world point and returns true.
The truncated point has each projected coordinate `c` replaced by `float64(int(c*10))/10`: the
product, the conversion back and the quotient are rounded to float64, `roundF64` placing its
result on the float64 grid at most half a step away, and `int` truncates toward zero within
the `int64` range. This covers the states in which the escape menu is open or a region
contains the pointer, which are exactly the states in which `OnMouseButtonDown` forwards no
action for the same event. -/
theorem repeat_ignores_menu_and_regions (env : Env) (g : GameControls) (event : MouseEvent)
    (now : ℚ)
    (hb : event.Button = MouseButton.MouseButtonLeft ∨
      event.Button = MouseButton.MouseButtonRight)
    (hthr : now - g.lastBtnActionTime event.Button ≥ 1 / 4) :
    (OnMouseButtonRepeat env g event now).ret = true ∧
    forwardedActions event.Button (OnMouseButtonRepeat env g event now).calls = 1 ∧
    (event.Button = MouseButton.MouseButtonLeft →
      OnMouseButtonRepeat env g event now
        = ⟨true, { g with lastLeftBtnActionTime := now },
            [Call.OnPlayerMove
              (roundF64 (roundF64
                ((goInt (roundF64 ((env.ScreenToWorld event.X event.Y).1 * 10)) : Int) : ℚ) / 10))
              (roundF64 (roundF64
                ((goInt (roundF64 ((env.ScreenToWorld event.X event.Y).2 * 10)) : Int) : ℚ)
                  / 10))]⟩) ∧
    (event.Button = MouseButton.MouseButtonRight →
      (OnMouseButtonRepeat env g event now).calls
        = (ShootMissile env { g with lastRightBtnActionTime := now }
            (roundF64 (roundF64
              ((goInt (roundF64 ((env.ScreenToWorld event.X event.Y).1 * 10)) : Int) : ℚ) / 10))
            (roundF64 (roundF64
              ((goInt (roundF64 ((env.ScreenToWorld event.X event.Y).2 * 10)) : Int) : ℚ)
                / 10))).calls ∧
      (OnMouseButtonRepeat env g event now).calls.head?
        = some (Call.ShootMissile
            (roundF64 (roundF64
              ((goInt (roundF64 ((env.ScreenToWorld event.X event.Y).1 * 10)) : Int) : ℚ) / 10))
            (roundF64 (roundF64
              ((goInt (roundF64 ((env.ScreenToWorld event.X event.Y).2 * 10)) : Int) : ℚ)
                / 10)))) ∧
    (∀ f : ℚ,
      (0 ≤ f → f < 2 ^ 63 → (goInt f : ℚ) ≤ f ∧ f < goInt f + 1) ∧
      (f ≤ 0 → -2 ^ 63 ≤ f → f ≤ goInt f ∧ (goInt f : ℚ) - 1 < f)) ∧
    (∀ x : ℚ,
      (∃ n : Int, roundF64 x = n * 2 ^ ulpExp x) ∧ |roundF64 x - x| ≤ 2 ^ ulpExp x / 2) ∧
    (forwardedActions event.Button (OnMouseButtonDown env g event now).calls = 0 ↔
      g.escapeMenuIsOpen = true ∨
        ∃ r ∈ g.actionableRegions, env.IsInRect r.Rect event.X event.Y = true) := by
  have hdown := down_forwarded env g event now hb
  have hiff : forwardedActions event.Button (OnMouseButtonDown env g event now).calls = 0 ↔
      g.escapeMenuIsOpen = true ∨
        ∃ r ∈ g.actionableRegions, env.IsInRect r.Rect event.X event.Y = true := by
    rw [hdown]
    split_ifs with h
    · simp [h]
    · simp [h]
  rcases hb with h | h
  · have hrep := repeat_left env g event now h
      (threshold_of_sub_ge _ _ (by simpa [h, GameControls.lastBtnActionTime] using hthr))
    refine ⟨by rw [hrep], ?_, fun _ => hrep, ?_, goInt_trunc, roundF64_near, hiff⟩
    · rw [hrep, h]; simp [forwardedActions, Call.isActionOf]
    · intro h2; rw [h] at h2; exact absurd h2 (by decide)
  · have hrep := repeat_right env g event now h
      (threshold_of_sub_ge _ _ (by simpa [h, GameControls.lastBtnActionTime] using hthr))
    refine ⟨by rw [hrep], ?_, ?_, fun _ => ⟨by rw [hrep]; rfl, ?_⟩, goInt_trunc,
      roundF64_near, hiff⟩
    · rw [hrep, h]; simp [shootMissile_forwarded]
    · intro h2; rw [h] at h2; exact absurd h2 (by decide)
    · rw [hrep]; exact shootMissile_head _ _ _ _

lemma roundF64_of_grid (x : ℚ) (L n : Int) (hx : 0 < x) (hlo : (2 : ℚ) ^ L ≤ x)
    (hhi : x < (2 : ℚ) ^ (L + 1)) (hL : -1022 ≤ L) (hU : L ≤ 1023)
    (hn : x = n * 2 ^ (L - 52)) : roundF64 x = x :=
  isF64_fixed x (isF64_of_grid x L n hx hlo hhi hL hU hn)

lemma goInt_of_int (q : ℚ) (k : Int) (hn : q.num = k) (hd : q.den = 1)
    (hlo : -2 ^ 63 ≤ k) (hhi : k < 2 ^ 63) : goInt q = k := by
  unfold goInt
  rw [hn, hd]
  simp only [Nat.cast_one, Int.tdiv_one]
  rw [if_pos ⟨hlo, hhi⟩]

/-- The pointer at screen point (120, 560) projects to (15/4, 35/2) under the sample
projection; its truncated first coordinate is the float64 nearest to 3.7. -/
lemma sample_truncated_x :
    roundF64 (roundF64
      ((goInt (roundF64 ((sampleEnv.ScreenToWorld 120 560).1 * 10)) : Int) : ℚ) / 10)
      = 4165829655317709 / 2 ^ 50 := by
  have hp : (sampleEnv.ScreenToWorld 120 560).1 * 10 = 75 / 2 := by
    simp only [sampleEnv]; norm_num
  have h1 : roundF64 (75 / 2) = 75 / 2 :=
    roundF64_of_grid _ 5 (75 * 2 ^ 46) (by norm_num) (by norm_num) (by norm_num) (by norm_num)
      (by norm_num) (by norm_num)
  have h2 : goInt (75 / 2) = 37 := by
    have hn : (75 / 2 : ℚ).num = 75 := by norm_num
    have hd : (75 / 2 : ℚ).den = 2 := by norm_num
    simp only [goInt, hn, hd]; decide
  have h3 : roundF64 (37 : ℚ) = 37 :=
    roundF64_of_grid _ 5 (37 * 2 ^ 47) (by norm_num) (by norm_num) (by norm_num) (by norm_num)
      (by norm_num) (by norm_num)
  have h4 : roundF64 (37 / 10) = 4165829655317709 / 2 ^ 50 := by
    rw [roundF64_eval (37 / 10) 1 8331659310635418 (by norm_num) (by norm_num) (by norm_num)
      (by norm_num) (by norm_num) (by norm_num)]
    norm_num
  rw [hp, h1, h2]
  push_cast
  rw [h3, h4]

lemma sample_truncated_y :
    roundF64 (roundF64
      ((goInt (roundF64 ((sampleEnv.ScreenToWorld 120 560).2 * 10)) : Int) : ℚ) / 10)
      = 35 / 2 := by
  have hp : (sampleEnv.ScreenToWorld 120 560).2 * 10 = 175 := by
    simp only [sampleEnv]; norm_num
  have h1 : roundF64 (175 : ℚ) = 175 :=
    roundF64_of_grid _ 7 (175 * 2 ^ 45) (by norm_num) (by norm_num) (by norm_num) (by norm_num)
      (by norm_num) (by norm_num)
  have h2 : goInt (175 : ℚ) = 175 :=
    goInt_of_int _ 175 (by norm_num) (by norm_num) (by norm_num) (by norm_num)
  have h4 : roundF64 (175 / 10) = 35 / 2 := by
    rw [show (175 / 10 : ℚ) = 35 / 2 by norm_num]
    exact roundF64_of_grid _ 4 (35 * 2 ^ 47) (by norm_num) (by norm_num) (by norm_num)
      (by norm_num) (by norm_num) (by norm_num)
  rw [hp, h1, h2]
  push_cast
  rw [h1, h4]

/-- C10, evaluated with the escape menu open and the pointer on the left skill button, one
second after start: the projected point (3.75, 17.5) is forwarded as (3.7, 17.5). -/
theorem repeat_ignores_menu_and_regions_witness :
    ({ sampleControls with escapeMenuIsOpen := true } : GameControls).escapeMenuIsOpen = true ∧
    sampleEnv.IsInRect ⟨115, 550, 50, 50⟩ 120 560 = true ∧
    sampleEnv.ScreenToWorld 120 560 = (15 / 4, 35 / 2) ∧
    (OnMouseButtonRepeat sampleEnv { sampleControls with escapeMenuIsOpen := true }
        ⟨120, 560, MouseButton.MouseButtonLeft⟩ 1).calls
      = [Call.OnPlayerMove (4165829655317709 / 2 ^ 50) (35 / 2)] ∧
    forwardedActions MouseButton.MouseButtonLeft
      (OnMouseButtonDown sampleEnv { sampleControls with escapeMenuIsOpen := true }
        ⟨120, 560, MouseButton.MouseButtonLeft⟩ 1).calls = 0 :=
  ⟨rfl, by decide, by simp only [sampleEnv]; norm_num,
   by
    rw [(repeat_ignores_menu_and_regions sampleEnv
      { sampleControls with escapeMenuIsOpen := true }
      ⟨120, 560, MouseButton.MouseButtonLeft⟩ 1 (Or.inl rfl)
      (by norm_num [GameControls.lastBtnActionTime, sampleControls, NewGameControls])).2.2.1
        rfl]
    simp only []
    rw [sample_truncated_x, sample_truncated_y],
   (repeat_ignores_menu_and_regions sampleEnv { sampleControls with escapeMenuIsOpen := true }
      ⟨120, 560, MouseButton.MouseButtonLeft⟩ 1 (Or.inl rfl)
      (by norm_num [GameControls.lastBtnActionTime, sampleControls, NewGameControls])).2.2.2.2.2.2.mpr
      (Or.inl rfl)⟩

/-! ## Layout arbiter -/

/-- C3: `updateLayout` issues exactly one viewport command, fixed by the two panel-open
flags alone: both open or both closed gives `ViewportDefault`, only the inventory open gives
`ViewportToLeft`, only the hero stats open gives `ViewportToRight`; a second call with the same
flags issues the same command as the first. -/
theorem updateLayout_framing (g g2 : GameControls) :
    (updateLayout g).length = 1 ∧
    updateLayout { g with inventoryIsOpen := true, heroStatsIsOpen := true }
      = [Call.ViewportDefault] ∧
    updateLayout { g with inventoryIsOpen := false, heroStatsIsOpen := false }
      = [Call.ViewportDefault] ∧
    updateLayout { g with inventoryIsOpen := true, heroStatsIsOpen := false }
      = [Call.ViewportToLeft] ∧
    updateLayout { g with inventoryIsOpen := false, heroStatsIsOpen := true }
      = [Call.ViewportToRight] ∧
    updateLayout { g2 with inventoryIsOpen := g.inventoryIsOpen,
                           heroStatsIsOpen := g.heroStatsIsOpen } = updateLayout g ∧
    updateLayout g ++ updateLayout g = List.replicate 2 ((updateLayout g).headD Call.ViewportDefault) := by
  refine ⟨?_, rfl, rfl, rfl, rfl, rfl, ?_⟩
  · cases hi : g.inventoryIsOpen <;> cases hs : g.heroStatsIsOpen <;> simp [updateLayout, hi, hs]
  · cases hi : g.inventoryIsOpen <;> cases hs : g.heroStatsIsOpen <;>
      simp [updateLayout, hi, hs, List.replicate]

/-! ## Keyboard -/

/-- C7: with the inventory open, whatever the hero-stats and escape-menu flags, `OnKeyDown` with
Escape closes inventory and hero stats, recomputes the layout with `updateLayout`, which selects
the default viewport, and neither toggles the escape menu nor changes its open flag. -/
theorem escape_closes_panels (env : Env) (g : GameControls) (m : KeyMod)
    (hopen : g.inventoryIsOpen = true) :
    (OnKeyDown env g ⟨Key.KeyEscape, m⟩).g.inventoryIsOpen = false ∧
    (OnKeyDown env g ⟨Key.KeyEscape, m⟩).g.heroStatsIsOpen = false ∧
    (OnKeyDown env g ⟨Key.KeyEscape, m⟩).g.escapeMenuIsOpen = g.escapeMenuIsOpen ∧
    (OnKeyDown env g ⟨Key.KeyEscape, m⟩).calls
      = [Call.inventoryClose, Call.heroStatsClose]
          ++ updateLayout (OnKeyDown env g ⟨Key.KeyEscape, m⟩).g ∧
    updateLayout (OnKeyDown env g ⟨Key.KeyEscape, m⟩).g = [Call.ViewportDefault] ∧
    Call.escapeMenuToggle ∉ (OnKeyDown env g ⟨Key.KeyEscape, m⟩).calls ∧
    (OnKeyDown env g ⟨Key.KeyEscape, m⟩).ret = false := by
  simp [OnKeyDown, hopen, updateLayout]

/-- C7, evaluated with inventory, hero stats and escape menu all open. -/
theorem escape_closes_panels_witness :
    ({ sampleControls with inventoryIsOpen := true, heroStatsIsOpen := true,
                           escapeMenuIsOpen := true } : GameControls).inventoryIsOpen = true ∧
    (OnKeyDown sampleEnv { sampleControls with inventoryIsOpen := true, heroStatsIsOpen := true,
                                               escapeMenuIsOpen := true }
        ⟨Key.KeyEscape, 0⟩).g.escapeMenuIsOpen = true :=
  ⟨rfl, (escape_closes_panels sampleEnv
    { sampleControls with inventoryIsOpen := true, heroStatsIsOpen := true,
                          escapeMenuIsOpen := true } 0 rfl).2.2.1⟩

/-- C8, as stated, fails: in free-camera mode with Shift and Control both held the Down key
pans by 8, not by 16. -/
theorem onKeyRepeat_shift_and_control :
    KeyMod.shiftHeld (KeyModShift ||| KeyModControl) = true ∧
    (OnKeyRepeat { sampleControls with FreeCam := true }
        ⟨Key.KeyDown, KeyModShift ||| KeyModControl⟩).calls = [Call.MoveCameraBy 0 8] ∧
    (OnKeyRepeat { sampleControls with FreeCam := true }
        ⟨Key.KeyDown, KeyModShift ||| KeyModControl⟩).calls ≠ [Call.MoveCameraBy 0 16] := by
  refine ⟨by decide, ?_, ?_⟩ <;>
    simp [OnKeyRepeat, sampleControls, NewGameControls, KeyModShift, KeyModControl]

/-- C8, amended: `OnKeyRepeat` returns true exactly when free-camera mode is on and the key is
Up, Down, Left or Right; it then issues exactly one `MoveCameraBy`, with delta `(0,+s)` for Down,
`(0,-s)` for Up, `(+s,0)` for Right, `(-s,0)` for Left, where `s = 16` when the modifier value of
the event equals `KeyModShift` and `s = 8` for every other modifier value; when it returns false
it issues no call; the state is never changed. -/
theorem onKeyRepeat_pan (g : GameControls) (event : KeyEvent) :
    ((OnKeyRepeat g event).ret = true ↔
      g.FreeCam = true ∧ (event.Key = Key.KeyUp ∨ event.Key = Key.KeyDown ∨
        event.Key = Key.KeyLeft ∨ event.Key = Key.KeyRight)) ∧
    (g.FreeCam = true → event.Key = Key.KeyDown → (OnKeyRepeat g event).calls
      = [Call.MoveCameraBy 0 (if event.KeyMod = KeyModShift then 16 else 8)]) ∧
    (g.FreeCam = true → event.Key = Key.KeyUp → (OnKeyRepeat g event).calls
      = [Call.MoveCameraBy 0 (-(if event.KeyMod = KeyModShift then 16 else 8))]) ∧
    (g.FreeCam = true → event.Key = Key.KeyRight → (OnKeyRepeat g event).calls
      = [Call.MoveCameraBy (if event.KeyMod = KeyModShift then 16 else 8) 0]) ∧
    (g.FreeCam = true → event.Key = Key.KeyLeft → (OnKeyRepeat g event).calls
      = [Call.MoveCameraBy (-(if event.KeyMod = KeyModShift then 16 else 8)) 0]) ∧
    ((OnKeyRepeat g event).ret = true → (cameraMoves (OnKeyRepeat g event).calls).length = 1 ∧
      (OnKeyRepeat g event).calls.length = 1) ∧
    ((OnKeyRepeat g event).ret = false → (OnKeyRepeat g event).calls = []) ∧
    (OnKeyRepeat g event).g = g := by
  obtain ⟨key, kmod⟩ := event
  cases hf : g.FreeCam
  · simp [OnKeyRepeat, hf]
  · by_cases hs : kmod = KeyModShift
    · cases key <;> simp [OnKeyRepeat, hf, hs, cameraMoves] <;> norm_num
    · cases key <;> simp [OnKeyRepeat, hf, hs, cameraMoves]

/-- C8 amended, evaluated in free-camera mode on the Down key with Shift alone held. -/
theorem onKeyRepeat_pan_witness :
    (freecam sampleControls).FreeCam = true ∧
    (OnKeyRepeat (freecam sampleControls) ⟨Key.KeyDown, KeyModShift⟩).calls
      = [Call.MoveCameraBy 0 16] :=
  ⟨rfl, ((onKeyRepeat_pan (freecam sampleControls) ⟨Key.KeyDown, KeyModShift⟩).2.1 rfl rfl).trans
    (by simp)⟩

/-! ## Zone-change banner -/

/-- C9 fails on the code: a delay of half a second is converted to the integer duration type
before it is scaled, so the timer is registered with 0 nanoseconds instead of 500000000, and a
delay of one and a half seconds with 1000000000 instead of 1500000000. -/
theorem hideZoneChangeTextAfter_drops_fraction :
    (HideZoneChangeTextAfter sampleControls (1 / 2)).2 = [Call.AfterFunc 0] ∧
    (HideZoneChangeTextAfter sampleControls (1 / 2)).1.hideTimers = [0] ∧
    ((1 / 2 : ℚ) * 10 ^ 9 = 500000000) ∧
    (HideZoneChangeTextAfter sampleControls (3 / 2)).2 = [Call.AfterFunc 1000000000] ∧
    ((3 / 2 : ℚ) * 10 ^ 9 = 1500000000) := by
  have h1 : goInt (1 / 2) = 0 := by
    have hn : (1 / 2 : ℚ).num = 1 := by norm_num
    have hd : (1 / 2 : ℚ).den = 2 := by norm_num
    simp only [goInt, hn, hd]; decide
  have h2 : goInt (3 / 2) = 1 := by
    have hn : (3 / 2 : ℚ).num = 3 := by norm_num
    have hd : (3 / 2 : ℚ).den = 2 := by norm_num
    simp only [goInt, hn, hd]; decide
  refine ⟨?_, ?_, by norm_num, ?_, by norm_num⟩
  · simp only [HideZoneChangeTextAfter, hideDelayNanoseconds, h1, wrapInt64, Second]; decide
  · simp only [HideZoneChangeTextAfter, hideDelayNanoseconds, h1, wrapInt64, Second,
      sampleControls, NewGameControls]; decide
  · simp only [HideZoneChangeTextAfter, hideDelayNanoseconds, h2, wrapInt64, Second]; decide

/-! ## Projectile spawn -/

/-- C6: when `CreateMissile` returns an error for the current `missileID`, `ShootMissile`
returns false for every target point and leaves the whole state as it was, in particular the
entity set and the registered removal callbacks; it calls none of `SetRadians`, `AddEntity`,
`RemoveEntity`. -/
theorem shootMissile_create_error (env : Env) (g : GameControls) (px py : ℚ) (e : String)
    (herr : env.CreateMissile (goInt g.heroLocationX) (goInt g.heroLocationY) g.missileID
      = Except.error e) :
    (ShootMissile env g px py).ret = false ∧
    (ShootMissile env g px py).g = g ∧
    (ShootMissile env g px py).g.entities = g.entities ∧
    (ShootMissile env g px py).g.removalCallbacks = g.removalCallbacks ∧
    (∀ c ∈ (ShootMissile env g px py).calls, c.touchesEntities = false) := by
  simp [ShootMissile, herr, Call.touchesEntities]

/-- C6, evaluated with `missileID` set to 7, for which the sample table has no record. -/
theorem shootMissile_create_error_witness :
    (ShootMissile sampleEnv { sampleControls with missileID := 7 } 3 4).ret = false ∧
    (ShootMissile sampleEnv { sampleControls with missileID := 7 } 3 4).g.entities = [] :=
  ⟨(shootMissile_create_error sampleEnv { sampleControls with missileID := 7 } 3 4
      "missile record not found" (by simp [sampleEnv])).1,
   (shootMissile_create_error sampleEnv { sampleControls with missileID := 7 } 3 4
      "missile record not found" (by simp [sampleEnv])).2.2.1⟩

end D2Player
